import Mathlib

/-!
Verification development for the TextGO recognition-and-dispatch core.

The definitions below are a shallow embedding of the TypeScript sources:
`src/lib/matcher.ts` (case catalogs, recognizer chain, match orchestrator),
`src/lib/executor.ts` (executor chain), `src/lib/shortcut.ts` / `src/lib/manager.ts`
(shortcut/rule registry) and the `bind` function of
`src/lib/components/Binder.svelte`.

Modelling conventions:
* JS strings are modelled by `String`; `String.prototype.startsWith` and
  `String.prototype.substring(n)` are embedded as list operations on
  `String.data` (`strStartsWith`, `strDrop`).
* JS numbers (detection confidences, thresholds) are modelled by `ℚ`;
  the literals `0.5`, `0.2`, `0.15`, `0.1` become `1/2`, `1/5`, `3/20`, `1/10`.
* External collaborators (the regex engine, the franc trigram detector, the
  vscode-languagedetection model, the trainable classifier `predict`, the
  script/prompt runtimes, the paraglide message catalog, clipboard and ids)
  are abstracted as fields of an `Env` record: each is an oracle function,
  total and deterministic, exactly as the spec treats them (contracts only).
* Side effects (Tauri `invoke` calls, popups, history writes) are reified as
  an explicit list of `Effect` values produced by each call.
* `Array.prototype.findIndex` is embedded as `findIndex` returning
  `Option Nat` (`none` stands for `-1`).
-/

namespace TextGO

/-- Embedding of JS `String.prototype.startsWith(p)`: `p` is a prefix of `s`. -/
def strStartsWith (p s : String) : Bool :=
  p.data.isPrefixOf s.data

/-- Embedding of JS `String.prototype.substring(n)`: drop the first `n` chars. -/
def strDrop (n : Nat) (s : String) : String :=
  String.mk (s.data.drop n)

/-- Classification model prefix (`src/lib/constants.ts`). -/
def MODEL_MARK : String := "model-"

/-- Custom regular expression prefix (`src/lib/constants.ts`). -/
def REGEXP_MARK : String := "regexp-"

/-- Script action prefix (`src/lib/constants.ts`). -/
def SCRIPT_MARK : String := "script-"

/-- AI prompt action prefix (`src/lib/constants.ts`). -/
def PROMPT_MARK : String := "prompt-"

/-- Web search action prefix (`src/lib/constants.ts`). -/
def SEARCHER_MARK : String := "searcher-"

/-- Mouse drag shortcut sentinel (`src/lib/constants.ts`). -/
def DRAG_SHORTCUT : String := "MouseClick+MouseMove"

/-- Mouse double-click shortcut sentinel (`src/lib/constants.ts`). -/
def DBCLICK_SHORTCUT : String := "MouseClick+MouseClick"

/-- Shift + mouse click shortcut sentinel (`src/lib/constants.ts`). -/
def SHIFT_CLICK_SHORTCUT : String := "Shift+MouseClick"

/-- Modelled from the spec: `isMouseShortcut` lives in `$lib/helpers`, whose
source file is not part of the sources at hand; per the spec (§6, Trigger
event) pointer gestures use fixed sentinel strings distinct from any valid
keyboard combination, so the helper is the membership test in the sentinel
set declared in `src/lib/constants.ts`. -/
def isMouseShortcut (shortcut : String) : Bool :=
  shortcut == DRAG_SHORTCUT || shortcut == DBCLICK_SHORTCUT || shortcut == SHIFT_CLICK_SHORTCUT

/-- A franc detection entry `[languageCode, confidence]` (`TrigramTuple`). -/
abbrev TrigramTuple := String × ℚ

/-- A vscode-languagedetection result (`ModelResult`). -/
structure ModelResult where
  languageId : String
  confidence : ℚ
deriving DecidableEq, Repr

/-- Minimum expected confidence (`0.2` in `src/lib/matcher.ts`). -/
def MIN_CONFIDENCE : ℚ := 1 / 5

/-- Initial confidence threshold (`0.5` in `src/lib/matcher.ts`). -/
def INITIAL_THRESHOLD : ℚ := 1 / 2

/-- Relative confidence difference threshold (`0.15` in `src/lib/matcher.ts`). -/
def RELATIVE_THRESHOLD : ℚ := 3 / 20

/-- Embedding of JS `Array.prototype.findIndex`; `none` models `-1`. -/
def findIndex (p : α → Bool) : List α → Option Nat
  | [] => none
  | a :: l => if p a then some 0 else (findIndex p l).map (· + 1)

/-- Embedding of `matchProgrammingCase` (`src/lib/matcher.ts`, lines 532-557):
dynamic threshold on the target's rank, then a confidence-difference fallback. -/
def matchProgrammingCase (targetId : String) (results : List ModelResult) : Bool :=
  if results.length == 0 then
    false
  else
    match findIndex (fun result => result.languageId == targetId) results with
    | none => false
    | some targetIndex =>
      let targetConfidence := (results[targetIndex]?.map ModelResult.confidence).getD 0
      let threshold := INITIAL_THRESHOLD + (1 / 10 : ℚ) * targetIndex
      if targetConfidence > threshold then
        true
      else if targetConfidence ≤ MIN_CONFIDENCE ∨ targetIndex ≥ 3 then
        false
      else
        let nextConfidence := (results[targetIndex + 1]?.map ModelResult.confidence).getD 0
        decide (targetConfidence - nextConfidence > RELATIVE_THRESHOLD)

/-- Embedding of `matchNaturalCase` (`src/lib/matcher.ts`, lines 567-592):
same strategy as `matchProgrammingCase` over franc `[code, confidence]` tuples. -/
def matchNaturalCase (targetCode : String) (results : List TrigramTuple) : Bool :=
  if results.length == 0 then
    false
  else
    match findIndex (fun t => t.1 == targetCode) results with
    | none => false
    | some targetIndex =>
      let targetConfidence := (results[targetIndex]?.map Prod.snd).getD 0
      let threshold := INITIAL_THRESHOLD + (1 / 10 : ℚ) * targetIndex
      if targetConfidence > threshold then
        true
      else if targetConfidence ≤ MIN_CONFIDENCE ∨ targetIndex ≥ 3 then
        false
      else
        let nextConfidence := (results[targetIndex + 1]?.map Prod.snd).getD 0
        decide (targetConfidence - nextConfidence > RELATIVE_THRESHOLD)

/-- Statement of the spec's Rank-Adjusted Confidence Rule, written from the
spec's words (§4.1) for comparison against the two matchers above: no match
if the target is absent; primary test `c > 0.5 + 0.1 * i`; fallback rejects
when `c <= 0.2` or `i >= 3`, otherwise accepts iff `c - next > 0.15` where
`next` is the next-ranked confidence or `0` if there is none. -/
def rankAdjustedConfidenceRule (target : String) (ranked : List (String × ℚ)) : Bool :=
  match findIndex (fun e => e.1 == target) ranked with
  | none => false
  | some i =>
    let c := (ranked[i]?.map Prod.snd).getD 0
    if c > 1 / 2 + 1 / 10 * i then
      true
    else if c ≤ 1 / 5 ∨ i ≥ 3 then
      false
    else
      decide (c - (ranked[i + 1]?.map Prod.snd).getD 0 > 3 / 20)

/-- A rule within a shortcut (`Rule` in `src/lib/types.d.ts`).  The TS field
`case` is a Lean keyword and is embedded as `caseId`; the optional boolean
fields (`preview`, `history`, `clipboard`), for which JS `undefined` is falsy
wherever the sources test them, are embedded as plain `Bool`. -/
structure Rule where
  id : String
  shortcut : String
  caseId : String
  caseLabel : Option String
  action : String
  actionLabel : Option String
  displayMode : Option String
  outputMode : Option String
  preview : Bool
  history : Bool
  clipboard : Bool
deriving DecidableEq, Repr

/-- A user-defined regular expression (`Regexp` in `src/lib/types.d.ts`). -/
structure Regexp where
  id : String
  pattern : String
  flags : Option String
deriving DecidableEq, Repr

/-- A user-trained classification model (`Model` in `src/lib/types.d.ts`);
the optional `modelTrained` flag is falsy when absent. -/
structure Model where
  id : String
  sample : String
  threshold : ℚ
  modelTrained : Bool
deriving DecidableEq, Repr

/-- A selectable case option (`Option` in `src/lib/types.d.ts`; renamed to
avoid Lean's `Option`).  `hasPattern` records whether the `pattern` field is
present; the compiled regex itself is external and reached through the
`patternTest` oracle of `Env`, keyed by the option's `value`. -/
structure CaseOption where
  value : String
  label : String
  hasPattern : Bool
deriving DecidableEq, Repr

/-- General recognition options (`GENERAL_CASES` in `src/lib/matcher.ts`);
labels come from the external paraglide message catalog `msg`. -/
def GENERAL_CASES (msg : String → String) : List CaseOption :=
  [⟨"url", msg "url", true⟩,
   ⟨"path", msg "path", true⟩,
   ⟨"email", msg "email", true⟩,
   ⟨"numbers", msg "numbers", true⟩,
   ⟨"small_letters", msg "small_letters", true⟩,
   ⟨"capital_letters", msg "capital_letters", true⟩,
   ⟨"uuid", msg "uuid", true⟩,
   ⟨"guid", msg "guid", true⟩,
   ⟨"ipv4", msg "ipv4", true⟩,
   ⟨"ipv6", msg "ipv6", true⟩,
   ⟨"info_hash", msg "info_hash", true⟩,
   ⟨"iso8601", msg "iso8601", true⟩,
   ⟨"timestamp", msg "timestamp", true⟩]

/-- Naming convention recognition options (`TEXT_CASES` in `src/lib/matcher.ts`). -/
def TEXT_CASES (msg : String → String) : List CaseOption :=
  [⟨"camel_case", msg "camel_case", true⟩,
   ⟨"pascal_case", msg "pascal_case", true⟩,
   ⟨"lower_case", msg "lower_case", true⟩,
   ⟨"start_case", msg "start_case", true⟩,
   ⟨"upper_case", msg "upper_case", true⟩,
   ⟨"snake_case", msg "snake_case", true⟩,
   ⟨"kebab_case", msg "kebab_case", true⟩,
   ⟨"constant_case", msg "constant_case", true⟩]

/-- Natural language recognition options (`NATURAL_CASES` in `src/lib/matcher.ts`). -/
def NATURAL_CASES (msg : String → String) : List CaseOption :=
  [⟨"eng", msg "lang_eng", false⟩,
   ⟨"cmn", msg "lang_cmn", false⟩,
   ⟨"jpn", msg "lang_jpn", false⟩,
   ⟨"kor", msg "lang_kor", false⟩,
   ⟨"rus", msg "lang_rus", false⟩,
   ⟨"fra", msg "lang_fra", false⟩,
   ⟨"deu", msg "lang_deu", false⟩,
   ⟨"spa", msg "lang_spa", false⟩,
   ⟨"por", msg "lang_por", false⟩,
   ⟨"arb", msg "lang_arb", false⟩]

/-- Programming language recognition options (`PROGRAMMING_CASES` in
`src/lib/matcher.ts`); labels are literal strings in the source. -/
def PROGRAMMING_CASES : List CaseOption :=
  [⟨"asm", "Assembly", false⟩, ⟨"bat", "Batchfile", false⟩, ⟨"c", "C", false⟩,
   ⟨"cs", "C#", false⟩, ⟨"cpp", "C++", false⟩, ⟨"clj", "Clojure", false⟩,
   ⟨"cmake", "CMake", false⟩, ⟨"cbl", "COBOL", false⟩, ⟨"coffee", "CoffeeScript", false⟩,
   ⟨"css", "CSS", false⟩, ⟨"csv", "CSV", false⟩, ⟨"dart", "Dart", false⟩,
   ⟨"dm", "DM", false⟩, ⟨"dockerfile", "Dockerfile", false⟩, ⟨"ex", "Elixir", false⟩,
   ⟨"erl", "Erlang", false⟩, ⟨"f90", "Fortran", false⟩, ⟨"go", "Go", false⟩,
   ⟨"groovy", "Groovy", false⟩, ⟨"hs", "Haskell", false⟩, ⟨"html", "HTML", false⟩,
   ⟨"ini", "INI", false⟩, ⟨"java", "Java", false⟩, ⟨"js", "JavaScript", false⟩,
   ⟨"json", "JSON", false⟩, ⟨"jl", "Julia", false⟩, ⟨"kt", "Kotlin", false⟩,
   ⟨"lisp", "Lisp", false⟩, ⟨"lua", "Lua", false⟩, ⟨"makefile", "Makefile", false⟩,
   ⟨"md", "Markdown", false⟩, ⟨"matlab", "Matlab", false⟩, ⟨"mm", "Objective-C", false⟩,
   ⟨"ml", "OCaml", false⟩, ⟨"pas", "Pascal", false⟩, ⟨"pm", "Perl", false⟩,
   ⟨"php", "PHP", false⟩, ⟨"ps1", "PowerShell", false⟩, ⟨"prolog", "Prolog", false⟩,
   ⟨"py", "Python", false⟩, ⟨"r", "R", false⟩, ⟨"rb", "Ruby", false⟩,
   ⟨"rs", "Rust", false⟩, ⟨"scala", "Scala", false⟩, ⟨"sh", "Shell", false⟩,
   ⟨"sql", "SQL", false⟩, ⟨"swift", "Swift", false⟩, ⟨"tex", "TeX", false⟩,
   ⟨"toml", "TOML", false⟩, ⟨"ts", "TypeScript", false⟩, ⟨"v", "Verilog", false⟩,
   ⟨"vba", "Visual Basic", false⟩, ⟨"xml", "XML", false⟩, ⟨"yaml", "YAML", false⟩]

/-- Lookup of `findBuiltinCase` (`src/lib/matcher.ts`; memoization is a pure
caching detail and is dropped). -/
def findBuiltinCase (msg : String → String) (c : String) : Option CaseOption :=
  (GENERAL_CASES msg ++ TEXT_CASES msg).find? (fun o => o.value == c)

/-- Lookup of `findNaturalCase` (`src/lib/matcher.ts`). -/
def findNaturalCase (msg : String → String) (c : String) : Option CaseOption :=
  (NATURAL_CASES msg).find? (fun o => o.value == c)

/-- Lookup of `findProgrammingCase` (`src/lib/matcher.ts`). -/
def findProgrammingCase (c : String) : Option CaseOption :=
  PROGRAMMING_CASES.find? (fun o => o.value == c)

/-- A user script action (`Script` in `src/lib/types.d.ts`). -/
structure Script where
  id : String
  lang : String
  script : String
deriving DecidableEq, Repr

/-- An AI conversation action (`Prompt` in `src/lib/types.d.ts`, plus the
sampling fields the executor copies onto the entry). -/
structure Prompt where
  id : String
  provider : String
  model : String
  prompt : String
  systemPrompt : Option String
  maxTokens : Option ℚ
  temperature : Option ℚ
  topP : Option ℚ
deriving DecidableEq, Repr

/-- A web search action (`Searcher` in `src/lib/types.d.ts`). -/
structure Searcher where
  id : String
  browser : Option String
  url : String
deriving DecidableEq, Repr

/-- A history record (`Entry` in `src/lib/types.d.ts`, with the fields the
executors write). -/
structure Entry where
  id : String
  shortcut : String
  datetime : String
  clipboard : String
  selection : String
  caseLabel : Option String
  actionType : Option String
  actionLabel : Option String
  result : Option String
  scriptLang : Option String
  provider : Option String
  model : Option String
  systemPrompt : Option String
  response : Option String
  maxTokens : Option ℚ
  temperature : Option ℚ
  topP : Option ℚ
  copyOnPopup : Option Bool
deriving DecidableEq, Repr

/-- Script execution result (`Result` in `src/lib/executor.ts`); `error` is
falsy when absent. -/
structure ScriptResult where
  text : String
  error : Bool
deriving DecidableEq, Repr

/-- Environment of external collaborators and store state shared by the
matcher and executor chains.  Every function field is an oracle for an
external call; list fields snapshot the persisted stores. -/
structure Env where
  /-- Paraglide message catalog `m` (localized labels). -/
  msg : String → String
  /-- Compiled builtin pattern test, keyed by case value: `pattern.test(text)`. -/
  patternTest : String → String → Bool
  /-- External `francAll(text, FRANC_OPTIONS)` trigram detection. -/
  francAll : String → List TrigramTuple
  /-- External `MODEL_OPERATIONS.runModel(text)` programming-language detection. -/
  runModel : String → List ModelResult
  /-- Store `regexps.current`. -/
  regexps : List Regexp
  /-- Store `models.current`. -/
  models : List Model
  /-- Whether `new RegExp(pattern, flags)` compiles (malformed patterns throw). -/
  compileRegex : String → Option String → Bool
  /-- External user-pattern test `pattern.test(text)` once compiled. -/
  regexpTest : String → Option String → String → Bool
  /-- External classifier `predict(modelId, text)`; `none` models `null`. -/
  predict : String → String → Option ℚ
  /-- Store `scripts.current`. -/
  scripts : List Script
  /-- Store `prompts.current`. -/
  prompts : List Prompt
  /-- Store `searchers.current`. -/
  searchers : List Searcher
  /-- External script runtime behind `executeScript`: WebView eval or the
  backend `execute_*` commands, all of which read only the entry's
  `datetime`, `clipboard` and `selection`; errors are already folded into
  the `error` flag of the returned `ScriptResult` by the source's `catch`. -/
  runScript : Script → Entry → ScriptResult
  /-- Matches of `URL_REGEX` in a text (external regex engine, `text.match`). -/
  extractUrls : String → List String
  /-- Matches of `PATH_REGEX` in a text (external regex engine). -/
  extractPaths : String → List String
  /-- The es-toolkit text functions (`camelCase`, `words`, `trim`, ...) used
  by the convert/process actions, keyed by action value. -/
  convertText : String → String → String
  /-- `crypto.randomUUID()`. -/
  newId : String
  /-- `new Date().toISOString()`. -/
  datetimeNow : String
  /-- Backend `get_clipboard_text`. -/
  clipboardText : String
  /-- Backend `is_shortcut_registered`. -/
  backendRegistered : String → Bool

/-- Matcher context's lazily-filled detection results (`MatcherContext`
fields `naturalLangs` / `programmingLangs`; `none` models `null`). -/
structure Cache where
  naturalLangs : Option (List TrigramTuple)
  programmingLangs : Option (List ModelResult)
deriving DecidableEq, Repr

/-- A matcher strategy: the `Matcher` function type of `src/lib/matcher.ts`,
with the context's mutable detection fields threaded explicitly. -/
abbrev MatcherFn := Env → String → Rule → Cache → Option Rule × Cache

/-- Embedding of `skipMatcher` (`src/lib/matcher.ts`, lines 307-313). -/
def skipMatcher : MatcherFn := fun _ _ rule cache =>
  if rule.caseId == "" then (some rule, cache) else (none, cache)

/-- Embedding of `builtinMatcher` (`src/lib/matcher.ts`, lines 318-329). -/
def builtinMatcher : MatcherFn := fun env text rule cache =>
  if text == "" then
    (none, cache)
  else
    match findBuiltinCase env.msg rule.caseId with
    | some builtin =>
      if builtin.hasPattern && env.patternTest builtin.value text then
        (some { rule with caseLabel := some builtin.label }, cache)
      else
        (none, cache)
    | none => (none, cache)

/-- Embedding of `naturalMatcher` (`src/lib/matcher.ts`, lines 334-356); the
franc call is the total oracle `Env.francAll`, so the `try`/`catch` around it
has no failing branch to model. -/
def naturalMatcher : MatcherFn := fun env text rule cache =>
  if text == "" then
    (none, cache)
  else
    match findNaturalCase env.msg rule.caseId with
    | some natural =>
      let langs := match cache.naturalLangs with
        | some l => l
        | none => env.francAll text
      let cache := { cache with naturalLangs := some langs }
      if matchNaturalCase rule.caseId langs then
        (some { rule with caseLabel := some natural.label }, cache)
      else
        (none, cache)
    | none => (none, cache)

/-- Embedding of `programmingMatcher` (`src/lib/matcher.ts`, lines 361-383). -/
def programmingMatcher : MatcherFn := fun env text rule cache =>
  if text == "" then
    (none, cache)
  else
    match findProgrammingCase rule.caseId with
    | some programming =>
      let langs := match cache.programmingLangs with
        | some l => l
        | none => env.runModel text
      let cache := { cache with programmingLangs := some langs }
      if matchProgrammingCase rule.caseId langs then
        (some { rule with caseLabel := some programming.label }, cache)
      else
        (none, cache)
    | none => (none, cache)

/-- Embedding of `customRegexMatcher` (`src/lib/matcher.ts`, lines 388-409):
a pattern that fails to compile throws inside the `try`, is caught, and the
matcher returns `null`. -/
def customRegexMatcher : MatcherFn := fun env text rule cache =>
  if text == "" || !(strStartsWith REGEXP_MARK rule.caseId) then
    (none, cache)
  else
    let regexpId := strDrop REGEXP_MARK.data.length rule.caseId
    match env.regexps.find? (fun r => r.id == regexpId) with
    | none => (none, cache)
    | some regexp =>
      if regexp.pattern == "" then
        (none, cache)
      else if env.compileRegex regexp.pattern regexp.flags then
        if env.regexpTest regexp.pattern regexp.flags text then
          (some { rule with caseLabel := some regexp.id }, cache)
        else
          (none, cache)
      else
        (none, cache)

/-- Embedding of `matchModelCase` (`src/lib/matcher.ts`, lines 601-608). -/
def matchModelCase (env : Env) (model : Model) (text : String) : Bool :=
  if !model.modelTrained then
    false
  else
    match env.predict model.id text with
    | none => false
    | some confidence => decide (confidence ≥ model.threshold)

/-- Embedding of `customModelMatcher` (`src/lib/matcher.ts`, lines 414-434). -/
def customModelMatcher : MatcherFn := fun env text rule cache =>
  if text == "" || !(strStartsWith MODEL_MARK rule.caseId) then
    (none, cache)
  else
    let modelId := strDrop MODEL_MARK.data.length rule.caseId
    match env.models.find? (fun m => m.id == modelId) with
    | none => (none, cache)
    | some model =>
      if matchModelCase env model text then
        (some { rule with caseLabel := some model.id }, cache)
      else
        (none, cache)

/-- The matcher chain `MATCHERS` (`src/lib/matcher.ts`, lines 439-446). -/
def MATCHERS : List MatcherFn :=
  [skipMatcher, builtinMatcher, naturalMatcher, programmingMatcher,
   customRegexMatcher, customModelMatcher]

/-- The inner loop of `match`: execute matchers in chain until one succeeds,
threading the shared context. -/
def runChain (ms : List MatcherFn) (env : Env) (text : String) (rule : Rule)
    (cache : Cache) : Option Rule × Cache :=
  match ms with
  | [] => (none, cache)
  | m :: rest =>
    match m env text rule cache with
    | (some matched, cache') => (some matched, cache')
    | (none, cache') => runChain rest env text rule cache'

/-- Embedding of the rule loop of `match` (`src/lib/matcher.ts`, lines
456-498; the source name `match` is a Lean keyword).  `Sum.inl` carries the
`matchAll = false` result (`Rule | null`), `Sum.inr` the `matchAll = true`
result (`Rule[]`). -/
def matchGo (env : Env) (text : String) (all : Bool) :
    List Rule → Cache → List String → List Rule → Option Rule ⊕ List Rule
  | [], _, _, acc => if all then Sum.inr acc else Sum.inl none
  | rule :: rest, cache, actions, acc =>
    if actions.contains rule.action then
      matchGo env text all rest cache actions acc
    else
      match runChain MATCHERS env text rule cache with
      | (some matched, cache') =>
        if all then
          matchGo env text all rest cache' (matched.action :: actions) (acc ++ [matched])
        else
          Sum.inl (some matched)
      | (none, cache') => matchGo env text all rest cache' actions acc

/-- Embedding of `matchOne` (`src/lib/matcher.ts`, lines 507-509). -/
def matchOne (env : Env) (text : String) (rules : List Rule) : Option Rule :=
  match matchGo env text false rules ⟨none, none⟩ [] [] with
  | Sum.inl r => r
  | Sum.inr _ => none

/-- Embedding of `matchAll` (`src/lib/matcher.ts`, lines 518-520). -/
def matchAll (env : Env) (text : String) (rules : List Rule) : List Rule :=
  match matchGo env text true rules ⟨none, none⟩ [] [] with
  | Sum.inr rs => rs
  | Sum.inl _ => []

/-- Side effects of the executor chain, reified: backend `invoke` calls,
opener-plugin calls and history writes.  `saveHistory` records the entry
value at the moment of the call. -/
inductive Effect where
  /-- `invoke('show_main_window')`. -/
  | showMainWindow : Effect
  /-- `invoke('enter_text', ...)` — in-place replacement of the selection. -/
  | enterText (text : String) (clipboard : Bool) : Effect
  /-- `showPopup(entry)` — the popup result surface. -/
  | showPopup (entry : Entry) : Effect
  /-- `openUrl(url, browser?)` from the opener plugin. -/
  | openUrlCall (url : String) (browser : Option String) : Effect
  /-- `openPath(path)` from the opener plugin. -/
  | openPathCall (path : String) : Effect
  /-- `invoke('set_clipboard_text', ...)`. -/
  | setClipboard (text : String) : Effect
  /-- `saveHistory(entry)` — append to the bounded history ring. -/
  | saveHistory (entry : Entry) : Effect
deriving DecidableEq, Repr

/-- An executor strategy (`Executor` function type of `src/lib/executor.ts`):
`Sum.inl b` models a `boolean` return, `Sum.inr s` a `string` return; the
mutated entry and the emitted effects are threaded explicitly. -/
abbrev ExecutorFn := Env → Rule → Entry → (Bool ⊕ String) × Entry × List Effect

/-- A builtin action descriptor (`Processor` in `src/lib/types.d.ts` without
its `process` closure, which is embedded by `runProcess` below). -/
structure Processor where
  value : String
  label : String
  noResult : Bool
deriving DecidableEq, Repr

/-- Default actions (`DEFAULT_ACTIONS` in `src/lib/executor.ts`). -/
def DEFAULT_ACTIONS (msg : String → String) : List Processor :=
  [⟨"copy", msg "copy", true⟩]

/-- General actions (`GENERAL_ACTIONS` in `src/lib/executor.ts`). -/
def GENERAL_ACTIONS (msg : String → String) : List Processor :=
  [⟨"open_urls", msg "open_urls", true⟩,
   ⟨"open_paths", msg "open_paths", true⟩]

/-- Naming convention conversion actions (`CONVERT_ACTIONS` in
`src/lib/executor.ts`). -/
def CONVERT_ACTIONS (msg : String → String) : List Processor :=
  [⟨"camel_case", msg "camel_case", false⟩,
   ⟨"pascal_case", msg "pascal_case", false⟩,
   ⟨"lower_case", msg "lower_case", false⟩,
   ⟨"start_case", msg "start_case", false⟩,
   ⟨"upper_case", msg "upper_case", false⟩,
   ⟨"snake_case", msg "snake_case", false⟩,
   ⟨"kebab_case", msg "kebab_case", false⟩,
   ⟨"constant_case", msg "constant_case", false⟩]

/-- Text processing actions (`PROCESS_ACTIONS` in `src/lib/executor.ts`). -/
def PROCESS_ACTIONS (msg : String → String) : List Processor :=
  [⟨"words", msg "words", false⟩,
   ⟨"reverse", msg "reverse", false⟩,
   ⟨"trim", msg "trim", false⟩,
   ⟨"ltrim", msg "ltrim", false⟩,
   ⟨"rtrim", msg "rtrim", false⟩,
   ⟨"deburr", msg "deburr", false⟩,
   ⟨"escape", msg "escape", false⟩,
   ⟨"unescape", msg "unescape", false⟩]

/-- Lookup of `findBuiltinAction` (`src/lib/executor.ts`). -/
def findBuiltinAction (msg : String → String) (action : String) : Option Processor :=
  (DEFAULT_ACTIONS msg ++ GENERAL_ACTIONS msg ++ CONVERT_ACTIONS msg ++
    PROCESS_ACTIONS msg).find? (fun a => a.value == action)

/-- The `process` closures of the builtin actions, dispatched on the action
value: `copy` copies nonempty text to the clipboard and returns `''`;
`open_urls` / `open_paths` open every regex match and return `''`; the
remaining convert/process actions apply the external es-toolkit text
function and have no side effect. -/
def runProcess (env : Env) (value : String) (text : String) : String × List Effect :=
  if value == "copy" then
    ("", if text == "" then [] else [Effect.setClipboard text])
  else if value == "open_urls" then
    ("", (env.extractUrls text).map (fun u => Effect.openUrlCall u none))
  else if value == "open_paths" then
    ("", (env.extractPaths text).map Effect.openPathCall)
  else
    (env.convertText value text, [])

/-- Embedding of `renderPrompt` (`src/lib/executor.ts`, lines 471-480); JS
`replace` with a global regex replaces every occurrence, as `String.replace`
does. -/
def renderPrompt (prompt : Prompt) (entry : Entry) : String :=
  let result := prompt.prompt
  let result := result.replace "\x7b\x7bclipboard\x7d\x7d" entry.clipboard
  let result := result.replace "\x7b\x7bselection\x7d\x7d" entry.selection
  result.replace "\x7b\x7bdatetime\x7d\x7d" entry.datetime

/-- Embedding of `defaultExecutor` (`src/lib/executor.ts`, lines 213-219). -/
def defaultExecutor : ExecutorFn := fun _ rule entry =>
  if rule.action == "" then
    (Sum.inl true, entry, [Effect.showMainWindow])
  else
    (Sum.inl false, entry, [])

/-- Embedding of `scriptExecutor` (`src/lib/executor.ts`, lines 224-262). -/
def scriptExecutor : ExecutorFn := fun env rule entry =>
  if !(strStartsWith SCRIPT_MARK rule.action) then
    (Sum.inl false, entry, [])
  else
    let scriptId := strDrop SCRIPT_MARK.data.length rule.action
    match env.scripts.find? (fun s => s.id == scriptId) with
    | none => (Sum.inl true, entry, [])
    | some script =>
      let result := env.runScript script entry
      let entry := { entry with
        actionType := some "script", actionLabel := some scriptId,
        result := some result.text, scriptLang := some script.lang }
      let histEffects := if rule.history then [Effect.saveHistory entry] else []
      if !result.error then
        if rule.preview then
          (Sum.inr result.text, entry, histEffects)
        else if rule.outputMode == some "replace" then
          (Sum.inl true, entry, histEffects ++ [Effect.enterText result.text rule.clipboard])
        else if rule.outputMode == some "popup" then
          let entry := { entry with copyOnPopup := some rule.clipboard }
          (Sum.inl true, entry, histEffects ++ [Effect.showPopup entry])
        else
          (Sum.inl true, entry, histEffects)
      else
        (Sum.inl true, entry, histEffects)

/-- Embedding of `promptExecutor` (`src/lib/executor.ts`, lines 267-295):
after the optional history write it always shows the popup window. -/
def promptExecutor : ExecutorFn := fun env rule entry =>
  if !(strStartsWith PROMPT_MARK rule.action) then
    (Sum.inl false, entry, [])
  else
    let promptId := strDrop PROMPT_MARK.data.length rule.action
    match env.prompts.find? (fun p => p.id == promptId) with
    | none => (Sum.inl true, entry, [])
    | some prompt =>
      let result := renderPrompt prompt entry
      let entry := { entry with
        actionType := some "prompt", actionLabel := some promptId,
        result := some result, systemPrompt := prompt.systemPrompt,
        provider := some prompt.provider, model := some prompt.model,
        maxTokens := prompt.maxTokens, temperature := prompt.temperature,
        topP := prompt.topP }
      let histEffects := if rule.history then [Effect.saveHistory entry] else []
      (Sum.inl true, entry, histEffects ++ [Effect.showPopup entry])

/-- Embedding of `searcherExecutor` (`src/lib/executor.ts`, lines 300-323);
JS `String.trim` is embedded as `String.trim`. -/
def searcherExecutor : ExecutorFn := fun env rule entry =>
  if !(strStartsWith SEARCHER_MARK rule.action) then
    (Sum.inl false, entry, [])
  else
    let searcherId := strDrop SEARCHER_MARK.data.length rule.action
    match env.searchers.find? (fun s => s.id == searcherId) with
    | none => (Sum.inl true, entry, [])
    | some searcher =>
      let result := searcher.url.replace "\x7b\x7bselection\x7d\x7d" entry.selection.trim
      let entry := { entry with
        actionType := some "searcher", actionLabel := some searcherId,
        result := some result }
      let histEffects := if rule.history then [Effect.saveHistory entry] else []
      (Sum.inl true, entry, histEffects ++ [Effect.openUrlCall result searcher.browser])

/-- Embedding of `builtinExecutor` (`src/lib/executor.ts`, lines 328-360). -/
def builtinExecutor : ExecutorFn := fun env rule entry =>
  match findBuiltinAction env.msg rule.action with
  | none => (Sum.inl false, entry, [])
  | some builtin =>
    let pr := runProcess env builtin.value entry.selection
    let result := pr.1
    let entry := { entry with
      actionType := some "builtin", actionLabel := some builtin.label,
      result := some result }
    let histEffects := if rule.history then [Effect.saveHistory entry] else []
    if rule.preview then
      (Sum.inr result, entry, pr.2 ++ histEffects)
    else if rule.outputMode == some "replace" then
      (Sum.inl true, entry, pr.2 ++ histEffects ++ [Effect.enterText result rule.clipboard])
    else if rule.outputMode == some "popup" then
      let entry := { entry with copyOnPopup := some rule.clipboard }
      (Sum.inl true, entry, pr.2 ++ histEffects ++ [Effect.showPopup entry])
    else
      (Sum.inl true, entry, pr.2 ++ histEffects)

/-- The executor chain `EXECUTORS` (`src/lib/executor.ts`, line 365). -/
def EXECUTORS : List ExecutorFn :=
  [defaultExecutor, scriptExecutor, promptExecutor, searcherExecutor, builtinExecutor]

/-- The loop of `execute`: try executors until one returns a truthy value
(JS truthiness: `false` and the empty string are falsy), accumulating
effects and threading the mutated entry. -/
def runExecutors (env : Env) (rule : Rule) :
    List ExecutorFn → Entry → List Effect → String × List Effect
  | [], _, effects => ("", effects)
  | ex :: rest, entry, effects =>
    match ex env rule entry with
    | (Sum.inl true, _, effs) => ("", effects ++ effs)
    | (Sum.inl false, entry', effs) => runExecutors env rule rest entry' (effects ++ effs)
    | (Sum.inr s, entry', effs) =>
      if s == "" then
        runExecutors env rule rest entry' (effects ++ effs)
      else
        (s, effects ++ effs)

/-- The fresh history record built at the top of `execute`
(`src/lib/executor.ts`, lines 374-386). -/
def initEntry (env : Env) (rule : Rule) (selection : String) : Entry :=
  { id := env.newId, shortcut := rule.shortcut, datetime := env.datetimeNow,
    clipboard := env.clipboardText, selection := selection,
    caseLabel := rule.caseLabel, actionType := none, actionLabel := none,
    result := none, scriptLang := none, provider := none, model := none,
    systemPrompt := none, response := none, maxTokens := none,
    temperature := none, topP := none, copyOnPopup := none }

/-- Embedding of `execute` (`src/lib/executor.ts`, lines 374-396): the
returned string is the action's textual result, `''` otherwise; the second
component collects every side effect of the dispatch. -/
def execute (env : Env) (rule : Rule) (selection : String) : String × List Effect :=
  runExecutors env rule EXECUTORS (initEntry env rule selection) []

/-- A shortcut's registry entry (`Shortcut` in `src/lib/types.d.ts`). -/
structure ShortcutState where
  mode : String
  rules : List Rule
deriving DecidableEq, Repr

/-- The `shortcuts.current` store: the shortcut-string → rule-list map,
embedded as an association list. -/
abbrev Shortcuts := List (String × ShortcutState)

/-- Lookup `shortcuts.current[shortcut]`. -/
def lookupShortcut (m : Shortcuts) (shortcut : String) : Option ShortcutState :=
  (m.find? (fun e => e.1 == shortcut)).map Prod.snd

/-- In-place mutation of the store's entry for `shortcut`. -/
def updateShortcut (m : Shortcuts) (shortcut : String) (st : ShortcutState) : Shortcuts :=
  m.map (fun e => if e.1 == shortcut then (e.1, st) else e)

/-- Backend hotkey calls issued by the registry. -/
inductive MgrEffect where
  /-- `invoke('register_shortcut', ...)`. -/
  | registerShortcut (shortcut : String) : MgrEffect
  /-- `invoke('unregister_shortcut', ...)`. -/
  | unregisterShortcut (shortcut : String) : MgrEffect
deriving DecidableEq, Repr

/-- Embedding of `Manager.register` (`src/lib/shortcut.ts`, lines 127-147;
identically in `src/lib/manager.ts`): bind the backend hotkey first when the
trigger is not a pointer gesture and not yet registered, then append the
rule unless a rule with the same id already exists. -/
def managerRegister (env : Env) (m : Shortcuts) (rule : Rule) : Shortcuts × List MgrEffect :=
  let effects :=
    if !(isMouseShortcut rule.shortcut) && !(env.backendRegistered rule.shortcut) then
      [MgrEffect.registerShortcut rule.shortcut]
    else
      []
  match lookupShortcut m rule.shortcut with
  | some s =>
    if (s.rules.find? (fun r => r.id == rule.id)).isNone then
      (updateShortcut m rule.shortcut { s with rules := s.rules ++ [rule] }, effects)
    else
      (m, effects)
  | none => (m, effects)

/-- Embedding of `Manager.unregister` (`src/lib/shortcut.ts`, lines 154-173;
identically in `src/lib/manager.ts`): remove the rule by id (`findIndex` +
`splice`), then unbind the backend hotkey when the remaining list is empty
and the trigger is not a pointer gesture. -/
def managerUnregister (m : Shortcuts) (rule : Rule) : Shortcuts × List MgrEffect :=
  match lookupShortcut m rule.shortcut with
  | none => (m, [])
  | some s =>
    let rules' :=
      match findIndex (fun r => r.id == rule.id) s.rules with
      | some index => s.rules.eraseIdx index
      | none => s.rules
    let effects :=
      if !(isMouseShortcut rule.shortcut) && rules'.length == 0 then
        [MgrEffect.unregisterShortcut rule.shortcut]
      else
        []
    (updateShortcut m rule.shortcut { s with rules := rules' }, effects)

/-- The Binder component's `rules` for a shortcut:
`shortcuts.current[shortcut]?.rules || []`. -/
def rulesOf (m : Shortcuts) (shortcut : String) : List Rule :=
  match lookupShortcut m shortcut with
  | some s => s.rules
  | none => []

/-- The rule object literal `bind` passes to `manager.register`. -/
def mkRule (shortcut caseId actionId newId : String) (displayMode outputMode : Option String)
    (preview history clipboard : Bool) : Rule :=
  { id := newId, shortcut := shortcut, caseId := caseId, caseLabel := none,
    action := actionId, actionLabel := none, displayMode := displayMode,
    outputMode := outputMode, preview := preview, history := history,
    clipboard := clipboard }

/-- Outcome surfaced to the user by `bind`. -/
inductive BindOutcome where
  /-- The `rule_already_used` error alert. -/
  | duplicateError : BindOutcome
  /-- The `rule_added_success` alert. -/
  | added : BindOutcome
deriving DecidableEq, Repr

/-- Embedding of `bind` (`src/lib/components/Binder.svelte`): the component's
`rules` are `shortcuts.current[shortcut]?.rules || []`; a rule with the same
`(shortcut, case, action)` triple aborts with the duplicate alert before any
registration; otherwise a fresh rule (id `newId`, from `crypto.randomUUID()`)
is registered through the manager. -/
def bind (env : Env) (m : Shortcuts) (shortcut caseId actionId newId : String)
    (displayMode outputMode : Option String) (preview history clipboard : Bool) :
    Shortcuts × BindOutcome × List MgrEffect :=
  let rules := rulesOf m shortcut
  if (rules.find? (fun r =>
      r.shortcut == shortcut && r.caseId == caseId && r.action == actionId)).isSome then
    (m, BindOutcome.duplicateError, [])
  else
    let result := managerRegister env m
      (mkRule shortcut caseId actionId newId displayMode outputMode preview history clipboard)
    (result.1, BindOutcome.added, result.2)

/-- A baseline concrete environment used to instantiate universally
quantified theorems at concrete inputs. -/
def envBase : Env :=
  { msg := fun s => s,
    patternTest := fun _ _ => false,
    francAll := fun _ => [],
    runModel := fun _ => [],
    regexps := [],
    models := [],
    compileRegex := fun _ _ => true,
    regexpTest := fun _ _ _ => false,
    predict := fun _ _ => none,
    scripts := [],
    prompts := [],
    searchers := [],
    runScript := fun _ _ => { text := "", error := false },
    extractUrls := fun _ => [],
    extractPaths := fun _ => [],
    convertText := fun _ s => s,
    newId := "id-1",
    datetimeNow := "2026-01-01T00:00:00Z",
    clipboardText := "clip",
    backendRegistered := fun _ => false }

/-- A concrete rule with the skip case and the builtin `copy` action. -/
def ruleSkip : Rule :=
  { id := "r1", shortcut := "Alt+X", caseId := "", caseLabel := none,
    action := "copy", actionLabel := none, displayMode := none,
    outputMode := some "replace", preview := false, history := false,
    clipboard := false }

/-- A second concrete rule sharing `ruleSkip`'s action. -/
def ruleSkip2 : Rule :=
  { ruleSkip with id := "r2" }

/-- A concrete trained model with threshold `0.5`. -/
def modelHalf : Model :=
  { id := "m1", sample := "s", threshold := 1 / 2, modelTrained := true }

/-- A concrete environment whose classifier reports confidence exactly `0.5`. -/
def envPredictHalf : Env :=
  { envBase with predict := fun _ _ => some (1 / 2) }

/-- A concrete stored regular expression whose pattern fails to compile. -/
def regexpBad : Regexp :=
  { id := "bad", pattern := "(", flags := none }

/-- A concrete environment holding `regexpBad`, whose regex engine rejects
every pattern at compile time. -/
def envRegexBad : Env :=
  { envBase with regexps := [regexpBad], compileRegex := fun _ _ => false }

/-- A concrete rule bound to the malformed custom regex case. -/
def ruleRegexBad : Rule :=
  { ruleSkip with id := "r3", caseId := "regexp-bad" }

/-- A concrete AI prompt action. -/
def promptP : Prompt :=
  { id := "p", provider := "ollama", model := "m", prompt := "hello",
    systemPrompt := none, maxTokens := none, temperature := none, topP := none }

/-- A concrete environment holding `promptP`. -/
def envPrompt : Env :=
  { envBase with prompts := [promptP] }

/-- A concrete preview rule bound to the prompt action. -/
def rulePrompt : Rule :=
  { ruleSkip with id := "r4", action := "prompt-p", preview := true }

/-- A concrete preview rule bound to the builtin `copy` action. -/
def rulePreviewCopy : Rule :=
  { ruleSkip with id := "r5", preview := true }

/-- A concrete rule bound to a pointer-gesture (double-click) shortcut. -/
def ruleMouse : Rule :=
  { ruleSkip with id := "r6", shortcut := DBCLICK_SHORTCUT }

/-- A concrete registry with one keyboard shortcut holding one rule. -/
def shortcutsOneRule : Shortcuts :=
  [("Alt+X", { mode := "quiet", rules := [ruleSkip] })]

/-- A concrete registry with one pointer-gesture shortcut holding one rule. -/
def shortcutsMouse : Shortcuts :=
  [(DBCLICK_SHORTCUT, { mode := "toolbar", rules := [ruleMouse] })]

/-- A concrete registry with one registered-empty keyboard shortcut. -/
def shortcutsEmpty : Shortcuts :=
  [("Alt+X", { mode := "quiet", rules := [] })]

/-- State-passing form of the `matchAll = true` loop of `match`, used to
reason about intermediate loop states: it returns the final
`(cache, matchedActions, matchedRules)` triple. -/
def matchScan (env : Env) (text : String) :
    List Rule → Cache × List String × List Rule → Cache × List String × List Rule
  | [], st => st
  | rule :: rest, (cache, actions, acc) =>
    if actions.contains rule.action then
      matchScan env text rest (cache, actions, acc)
    else
      match runChain MATCHERS env text rule cache with
      | (some matched, cache') =>
        matchScan env text rest (cache', matched.action :: actions, acc ++ [matched])
      | (none, cache') => matchScan env text rest (cache', actions, acc)

/-- A rule with its recognition label cleared; matchers return the input
rule with only `caseLabel` changed, so this is the underlying rule. -/
def eraseLabel (r : Rule) : Rule :=
  { r with caseLabel := none }

/-- The actions of a list of rules. -/
def actionsOf (rules : List Rule) : List String :=
  rules.map (fun r => r.action)

/-- The `(case, action)` pairs of a list of rules. -/
def pairsOf (rules : List Rule) : List (String × String) :=
  rules.map (fun r => (r.caseId, r.action))

/-- Whether an effect is an in-place text replacement or a popup display. -/
def isReplaceOrPopup : Effect → Bool
  | Effect.enterText _ _ => true
  | Effect.showPopup _ => true
  | _ => false

/-- Whether some effect in the list replaces text in place or opens a popup. -/
def hasReplaceOrPopup (effects : List Effect) : Bool :=
  effects.any isReplaceOrPopup

end TextGO

namespace TextGO

theorem findIndex_map (f : α → β) (p : β → Bool) (l : List α) :
    findIndex p (l.map f) = findIndex (fun a => p (f a)) l := by
  induction l with
  | nil => rfl
  | cons a l ih => simp [findIndex, ih]

/-- C1: the natural-language and programming-language matchers decide a
match exactly by the spec's Rank-Adjusted Confidence Rule over their
rank-sorted detection lists. -/
theorem matchers_follow_rank_adjusted_rule :
    ∀ (target : String) (nresults : List TrigramTuple) (presults : List ModelResult),
      matchNaturalCase target nresults = rankAdjustedConfidenceRule target nresults ∧
      matchProgrammingCase target presults =
        rankAdjustedConfidenceRule target (presults.map fun r => (r.languageId, r.confidence)) := by
  intro target nresults presults
  constructor
  · cases nresults with
    | nil => rfl
    | cons a l =>
      simp only [matchNaturalCase, rankAdjustedConfidenceRule, INITIAL_THRESHOLD,
        MIN_CONFIDENCE, RELATIVE_THRESHOLD, List.length_cons]
      rfl
  · cases presults with
    | nil => rfl
    | cons a l =>
      simp only [matchProgrammingCase, rankAdjustedConfidenceRule, INITIAL_THRESHOLD,
        MIN_CONFIDENCE, RELATIVE_THRESHOLD, findIndex_map, List.getElem?_map,
        Option.map_map]
      rfl

theorem runChain_skip (env : Env) (text : String) (rule : Rule) (cache : Cache)
    (h : rule.caseId = "") : runChain MATCHERS env text rule cache = (some rule, cache) := by
  simp [runChain, MATCHERS, skipMatcher, h]

theorem runChain_empty_text (env : Env) (rule : Rule) (cache : Cache)
    (h : rule.caseId ≠ "") : runChain MATCHERS env "" rule cache = (none, cache) := by
  simp [runChain, MATCHERS, skipMatcher, builtinMatcher, naturalMatcher,
    programmingMatcher, customRegexMatcher, customModelMatcher, h]

theorem matchGo_false_empty_text (env : Env) :
    ∀ (rules : List Rule) (cache : Cache) (r : Rule),
      matchGo env "" false rules cache [] [] = Sum.inl (some r) → r.caseId = "" := by
  intro rules
  induction rules with
  | nil => intro cache r h; simp [matchGo] at h
  | cons rule rest ih =>
    intro cache r h
    by_cases hc : rule.caseId = ""
    · rw [matchGo, if_neg (by simp), runChain_skip env "" rule cache hc] at h
      simp at h
      rw [← h]
      exact hc
    · rw [matchGo, if_neg (by simp), runChain_empty_text env rule cache hc] at h
      exact ih cache r h

/-- C4: a Skip-case rule (empty case identifier) always matches, is returned
unchanged, and the matcher chain stops at the skip matcher: the detection
cache is untouched, so no language classification is performed. -/
theorem skip_case_always_matches (env : Env) (text : String) (rule : Rule)
    (cache : Cache) (h : rule.caseId = "") :
    runChain MATCHERS env text rule cache = (some rule, cache) :=
  runChain_skip env text rule cache h

/-- Witness for C4 at a concrete environment, text and rule. -/
theorem skip_case_always_matches_witness :
    runChain MATCHERS envBase "" ruleSkip ⟨none, none⟩ = (some ruleSkip, ⟨none, none⟩) :=
  skip_case_always_matches envBase "" ruleSkip ⟨none, none⟩ rfl

/-- C10: on the empty text every non-skip matcher fails, so the chain
returns no match for any rule with a non-empty case identifier, and the
only possible result of `matchOne` on the empty string is a Skip-case rule. -/
theorem empty_text_matches_only_skip (env : Env) (rule : Rule) (cache : Cache)
    (rules : List Rule) (r : Rule) :
    (rule.caseId ≠ "" → runChain MATCHERS env "" rule cache = (none, cache)) ∧
    (matchOne env "" rules = some r → r.caseId = "") := by
  constructor
  · intro h
    exact runChain_empty_text env rule cache h
  · intro h
    apply matchGo_false_empty_text env rules ⟨none, none⟩ r
    unfold matchOne at h
    split at h
    next heq => exact h ▸ heq
    next => exact absurd h (by simp)

theorem skipMatcher_preserves (env : Env) (t : String) (r : Rule) (c : Cache)
    (m : Rule) (c' : Cache) (h : skipMatcher env t r c = (some m, c')) :
    eraseLabel m = eraseLabel r := by
  unfold skipMatcher at h
  split at h
  · simp only [Prod.mk.injEq, Option.some.injEq] at h
    obtain ⟨h1, -⟩ := h
    rw [← h1]
  · simp at h

theorem builtinMatcher_preserves (env : Env) (t : String) (r : Rule) (c : Cache)
    (m : Rule) (c' : Cache) (h : builtinMatcher env t r c = (some m, c')) :
    eraseLabel m = eraseLabel r := by
  unfold builtinMatcher at h
  split at h
  · simp at h
  · split at h
    · split at h
      · simp only [Prod.mk.injEq, Option.some.injEq] at h
        obtain ⟨h1, -⟩ := h
        rw [← h1]
        rfl
      · simp at h
    · simp at h

theorem naturalMatcher_preserves (env : Env) (t : String) (r : Rule) (c : Cache)
    (m : Rule) (c' : Cache) (h : naturalMatcher env t r c = (some m, c')) :
    eraseLabel m = eraseLabel r := by
  unfold naturalMatcher at h
  split at h
  · simp at h
  · split at h
    · split at h <;> dsimp only at h <;> split at h
      · simp only [Prod.mk.injEq, Option.some.injEq] at h
        obtain ⟨h1, -⟩ := h
        rw [← h1]
        rfl
      · simp at h
      · simp only [Prod.mk.injEq, Option.some.injEq] at h
        obtain ⟨h1, -⟩ := h
        rw [← h1]
        rfl
      · simp at h
    · simp at h

theorem programmingMatcher_preserves (env : Env) (t : String) (r : Rule) (c : Cache)
    (m : Rule) (c' : Cache) (h : programmingMatcher env t r c = (some m, c')) :
    eraseLabel m = eraseLabel r := by
  unfold programmingMatcher at h
  split at h
  · simp at h
  · split at h
    · split at h <;> dsimp only at h <;> split at h
      · simp only [Prod.mk.injEq, Option.some.injEq] at h
        obtain ⟨h1, -⟩ := h
        rw [← h1]
        rfl
      · simp at h
      · simp only [Prod.mk.injEq, Option.some.injEq] at h
        obtain ⟨h1, -⟩ := h
        rw [← h1]
        rfl
      · simp at h
    · simp at h

theorem customRegexMatcher_preserves (env : Env) (t : String) (r : Rule) (c : Cache)
    (m : Rule) (c' : Cache) (h : customRegexMatcher env t r c = (some m, c')) :
    eraseLabel m = eraseLabel r := by
  unfold customRegexMatcher at h
  split at h
  · simp at h
  · dsimp only at h
    split at h
    · simp at h
    · split at h
      · simp at h
      · split at h
        · split at h
          · simp only [Prod.mk.injEq, Option.some.injEq] at h
            obtain ⟨h1, -⟩ := h
            rw [← h1]
            rfl
          · simp at h
        · simp at h

theorem customModelMatcher_preserves (env : Env) (t : String) (r : Rule) (c : Cache)
    (m : Rule) (c' : Cache) (h : customModelMatcher env t r c = (some m, c')) :
    eraseLabel m = eraseLabel r := by
  unfold customModelMatcher at h
  split at h
  · simp at h
  · dsimp only at h
    split at h
    · simp at h
    · split at h
      · simp only [Prod.mk.injEq, Option.some.injEq] at h
        obtain ⟨h1, -⟩ := h
        rw [← h1]
        rfl
      · simp at h

theorem runChain_preserves_of_all (ms : List MatcherFn)
    (hall : ∀ mf ∈ ms, ∀ env t r c m c', mf env t r c = (some m, c') →
      eraseLabel m = eraseLabel r) :
    ∀ env t r c m c', runChain ms env t r c = (some m, c') →
      eraseLabel m = eraseLabel r := by
  induction ms with
  | nil => intro env t r c m c' h; simp [runChain] at h
  | cons mf rest ih =>
    intro env t r c m c' h
    rw [runChain] at h
    rcases hmf : mf env t r c with ⟨res, cache'⟩
    rw [hmf] at h
    cases res with
    | some matched =>
      dsimp only at h
      simp only [Prod.mk.injEq, Option.some.injEq] at h
      exact h.1 ▸ hall mf (by simp) env t r c matched cache' hmf
    | none =>
      dsimp only at h
      exact ih (fun g hg => hall g (by simp [hg])) env t r cache' m c' h

theorem runChain_MATCHERS_preserves (env : Env) (t : String) (r : Rule) (c : Cache)
    (m : Rule) (c' : Cache) (h : runChain MATCHERS env t r c = (some m, c')) :
    eraseLabel m = eraseLabel r := by
  apply runChain_preserves_of_all MATCHERS _ env t r c m c' h
  intro mf hmf
  simp only [MATCHERS, List.mem_cons, List.mem_singleton, List.not_mem_nil, or_false] at hmf
  rcases hmf with rfl | rfl | rfl | rfl | rfl | rfl
  · exact skipMatcher_preserves
  · exact builtinMatcher_preserves
  · exact naturalMatcher_preserves
  · exact programmingMatcher_preserves
  · exact customRegexMatcher_preserves
  · exact customModelMatcher_preserves

theorem runChain_preserves_action (env : Env) (t : String) (r : Rule) (c : Cache)
    (m : Rule) (c' : Cache) (h : runChain MATCHERS env t r c = (some m, c')) :
    m.action = r.action := by
  have h2 := congrArg Rule.action (runChain_MATCHERS_preserves env t r c m c' h)
  simpa [eraseLabel] using h2

/-- Witness for C10: a concrete non-skip rule does not match the empty
text, and `matchOne` of the empty text over a skip rule returns it. -/
theorem empty_text_matches_only_skip_witness :
    runChain MATCHERS envBase "" { ruleSkip with caseId := "url" } ⟨none, none⟩ =
      (none, (⟨none, none⟩ : Cache)) ∧ ruleSkip.caseId = "" :=
  ⟨(empty_text_matches_only_skip envBase { ruleSkip with caseId := "url" } ⟨none, none⟩
      [ruleSkip] ruleSkip).1 (by decide),
   (empty_text_matches_only_skip envBase { ruleSkip with caseId := "url" } ⟨none, none⟩
      [ruleSkip] ruleSkip).2 (by decide)⟩

theorem matchGo_true_eq (env : Env) (t : String) :
    ∀ (R : List Rule) (c : Cache) (a : List String) (acc : List Rule),
      matchGo env t true R c a acc = Sum.inr (matchScan env t R (c, a, acc)).2.2 := by
  intro R
  induction R with
  | nil => intro c a acc; rfl
  | cons rule rest ih =>
    intro c a acc
    rw [matchGo, matchScan]
    split
    · exact ih c a acc
    · rcases h : runChain MATCHERS env t rule c with ⟨res, c'⟩
      cases res with
      | some matched =>
        dsimp only
        exact ih c' (matched.action :: a) (acc ++ [matched])
      | none =>
        dsimp only
        exact ih c' a acc

theorem matchScan_append (env : Env) (t : String) :
    ∀ (R1 R2 : List Rule) (st : Cache × List String × List Rule),
      matchScan env t (R1 ++ R2) st = matchScan env t R2 (matchScan env t R1 st) := by
  intro R1
  induction R1 with
  | nil => intro R2 st; rfl
  | cons rule rest ih =>
    intro R2 st
    rcases st with ⟨c, a, acc⟩
    rw [List.cons_append]
    rw [matchScan, matchScan]
    split
    · exact ih R2 (c, a, acc)
    · rcases h : runChain MATCHERS env t rule c with ⟨res, c'⟩
      cases res with
      | some matched =>
        dsimp only
        exact ih R2 _
      | none =>
        dsimp only
        exact ih R2 _

theorem matchScan_state (env : Env) (t : String) :
    ∀ (R : List Rule) (c : Cache) (a : List String) (acc : List Rule),
      ∃ news : List Rule,
        (matchScan env t R (c, a, acc)).2.2 = acc ++ news ∧
        (matchScan env t R (c, a, acc)).2.1 = (actionsOf news).reverse ++ a ∧
        (news.map eraseLabel).Sublist (R.map eraseLabel) := by
  intro R
  induction R with
  | nil =>
    intro c a acc
    exact ⟨[], by simp [matchScan, actionsOf], by simp [matchScan, actionsOf],
      by simp [matchScan]⟩
  | cons rule rest ih =>
    intro c a acc
    rw [matchScan]
    split
    · obtain ⟨news, h1, h2, h3⟩ := ih c a acc
      exact ⟨news, h1, h2, h3.trans ((rest.map eraseLabel).sublist_cons_self _)⟩
    · rcases h : runChain MATCHERS env t rule c with ⟨res, c'⟩
      cases res with
      | some matched =>
        dsimp only
        obtain ⟨news, h1, h2, h3⟩ := ih c' (matched.action :: a) (acc ++ [matched])
        refine ⟨matched :: news, ?_, ?_, ?_⟩
        · rw [h1]
          simp
        · rw [h2]
          simp [actionsOf]
        · have hm := runChain_MATCHERS_preserves env t rule c matched c' h
          rw [List.map_cons, List.map_cons, hm]
          exact h3.cons₂ (eraseLabel rule)
      | none =>
        dsimp only
        obtain ⟨news, h1, h2, h3⟩ := ih c' a acc
        exact ⟨news, h1, h2, h3.trans ((rest.map eraseLabel).sublist_cons_self _)⟩

theorem matchAll_eq_scan (env : Env) (t : String) (R : List Rule) :
    matchAll env t R = (matchScan env t R (⟨none, none⟩, [], [])).2.2 := by
  unfold matchAll
  rw [matchGo_true_eq]

theorem matchScan_nodup (env : Env) (t : String) :
    ∀ (R : List Rule) (c : Cache) (a : List String) (acc : List Rule),
      (actionsOf acc).Nodup → (∀ x ∈ actionsOf acc, a.contains x = true) →
      (actionsOf (matchScan env t R (c, a, acc)).2.2).Nodup := by
  intro R
  induction R with
  | nil =>
    intro c a acc h1 _
    simpa [matchScan] using h1
  | cons rule rest ih =>
    intro c a acc h1 h2
    rw [matchScan]
    split
    · exact ih c a acc h1 h2
    next hcon =>
      rcases h : runChain MATCHERS env t rule c with ⟨res, c'⟩
      cases res with
      | some matched =>
        dsimp only
        have hact : matched.action = rule.action :=
          runChain_preserves_action env t rule c matched c' h
        apply ih
        · rw [actionsOf, List.map_append]
          apply List.Nodup.append h1 (List.nodup_singleton _)
          intro x hx hx2
          simp only [List.map_cons, List.map_nil, List.mem_singleton] at hx2
          rw [hx2, hact] at hx
          exact hcon (h2 rule.action hx)
        · intro x hx
          rw [actionsOf, List.map_append] at hx
          apply List.elem_eq_true_of_mem
          rcases List.mem_append.mp hx with hx | hx
          · exact List.mem_cons_of_mem _ (List.mem_of_elem_eq_true (h2 x hx))
          · simp only [List.map_cons, List.map_nil, List.mem_singleton] at hx
            rw [hx]
            exact List.mem_cons_self _ _
      | none =>
        dsimp only
        exact ih c' a acc h1 h2

/-- C2: `matchAll` never collects two rules with the same action, and a rule
whose action was already matched by an earlier rule is skipped without any
observable effect: deleting it from the list leaves the result unchanged. -/
theorem matchAll_no_duplicate_actions (env : Env) (t : String) (R : List Rule) :
    (actionsOf (matchAll env t R)).Nodup ∧
    ∀ (R1 : List Rule) (r : Rule) (R2 : List Rule),
      r.action ∈ actionsOf (matchAll env t R1) →
      matchAll env t (R1 ++ r :: R2) = matchAll env t (R1 ++ R2) := by
  constructor
  · rw [matchAll_eq_scan]
    exact matchScan_nodup env t R ⟨none, none⟩ [] [] (by simp [actionsOf]) (by simp [actionsOf])
  · intro R1 r R2 hmem
    rw [matchAll_eq_scan, matchAll_eq_scan, matchScan_append, matchScan_append]
    obtain ⟨news, h1, h2, -⟩ := matchScan_state env t R1 ⟨none, none⟩ [] []
    rw [matchAll_eq_scan] at hmem
    rcases hst : matchScan env t R1 (⟨none, none⟩, [], []) with ⟨c1, a1, acc1⟩
    rw [hst] at h1 h2 hmem
    simp only [List.nil_append, List.append_nil] at h1 h2
    rw [h1] at hmem
    have hcon : a1.contains r.action = true := by
      apply List.elem_eq_true_of_mem
      rw [h2, List.mem_reverse]
      exact hmem
    rw [matchScan, if_pos hcon]

/-- Witness for C2 at a concrete environment: two rules with the same action
produce one collected rule, and dropping the second changes nothing. -/
theorem matchAll_no_duplicate_actions_witness :
    (actionsOf (matchAll envBase "x" [ruleSkip, ruleSkip2])).Nodup ∧
    matchAll envBase "x" ([ruleSkip] ++ ruleSkip2 :: []) = matchAll envBase "x" ([ruleSkip] ++ []) :=
  ⟨(matchAll_no_duplicate_actions envBase "x" [ruleSkip, ruleSkip2]).1,
   (matchAll_no_duplicate_actions envBase "x" [ruleSkip, ruleSkip2]).2 [ruleSkip] ruleSkip2 []
     (by decide)⟩

theorem matchGo_false_head (env : Env) (t : String) :
    ∀ (R : List Rule) (c : Cache),
      matchGo env t false R c [] [] =
        Sum.inl ((matchScan env t R (c, [], [])).2.2).head? := by
  intro R
  induction R with
  | nil => intro c; rfl
  | cons rule rest ih =>
    intro c
    rw [matchGo, matchScan]
    rw [if_neg (by simp), if_neg (by simp)]
    rcases h : runChain MATCHERS env t rule c with ⟨res, c'⟩
    cases res with
    | some matched =>
      dsimp only
      obtain ⟨news, h1, -, -⟩ := matchScan_state env t rest c' (matched.action :: []) ([] ++ [matched])
      rw [h1]
      simp
    | none =>
      dsimp only
      exact ih c'

/-- C3: `matchOne` returns exactly the head of `matchAll` (so a `matchOne`
result always appears in `matchAll`), and `matchAll` — up to the recognition
label the matchers attach — is a sublist of the input rules in list order,
so that head is the earliest rule of `R` appearing in `matchAll`. -/
theorem matchOne_consistent_with_matchAll (env : Env) (t : String) (R : List Rule) :
    matchOne env t R = (matchAll env t R).head? ∧
    ((matchAll env t R).map eraseLabel).Sublist (R.map eraseLabel) := by
  constructor
  · rw [matchAll_eq_scan]
    unfold matchOne
    rw [matchGo_false_head env t R ⟨none, none⟩]
  · rw [matchAll_eq_scan]
    obtain ⟨news, h1, -, h3⟩ := matchScan_state env t R ⟨none, none⟩ [] []
    rw [h1]
    simpa using h3

/-- C8: for a trained custom model, `matchModelCase` matches exactly when
the external classifier returns a non-null confidence at least the stored
threshold — the boundary `confidence = threshold` is inclusive, and a null
confidence never matches. -/
theorem model_case_threshold_inclusive (env : Env) (model : Model) (text : String)
    (h : model.modelTrained = true) :
    matchModelCase env model text = true ↔
      ∃ c : ℚ, env.predict model.id text = some c ∧ model.threshold ≤ c := by
  unfold matchModelCase
  rw [h]
  simp only [Bool.not_true, Bool.false_eq_true, if_false]
  rcases hp : env.predict model.id text with - | c
  · simp
  · simp [ge_iff_le]

/-- Witness for C8: confidence exactly equal to the threshold `0.5`
matches (inclusive boundary). -/
theorem model_case_threshold_inclusive_witness :
    matchModelCase envPredictHalf modelHalf "t" = true :=
  (model_case_threshold_inclusive envPredictHalf modelHalf "t" rfl).mpr
    ⟨1 / 2, rfl, le_refl _⟩

theorem data_prefix_of_startsWith (p c : String) (h : strStartsWith p c = true) :
    p.data <+: c.data := by
  unfold strStartsWith at h
  exact List.isPrefixOf_iff_prefix.mp h

theorem beq_eq_false_of_prefix_mismatch (p c v : String)
    (h1 : strStartsWith p c = true) (h2 : strStartsWith p v = false) :
    (v == c) = false := by
  apply beq_eq_false_iff_ne.mpr
  rintro rfl
  rw [h1] at h2
  simp at h2

theorem startsWith_false_of_shorter_mark (p q c : String)
    (hlen : p.data.length ≤ q.data.length)
    (hnp : p.data.isPrefixOf q.data = false)
    (hq : strStartsWith q c = true) : strStartsWith p c = false := by
  rw [Bool.eq_false_iff]
  intro hp
  have h2 : p.data <+: q.data :=
    List.prefix_of_prefix_length_le (data_prefix_of_startsWith p c hp)
      (data_prefix_of_startsWith q c hq) hlen
  rw [← List.isPrefixOf_iff_prefix, hnp] at h2
  simp at h2

theorem startsWith_false_of_longer_mark (p q c : String)
    (hlen : q.data.length ≤ p.data.length)
    (hnp : q.data.isPrefixOf p.data = false)
    (hq : strStartsWith q c = true) : strStartsWith p c = false := by
  rw [Bool.eq_false_iff]
  intro hp
  have h2 : q.data <+: p.data :=
    List.prefix_of_prefix_length_le (data_prefix_of_startsWith q c hq)
      (data_prefix_of_startsWith p c hp) hlen
  rw [← List.isPrefixOf_iff_prefix, hnp] at h2
  simp at h2

theorem ne_empty_of_startsWith (q c : String) (hq : strStartsWith q c = true)
    (hqne : q ≠ "") : c ≠ "" := by
  intro hc
  subst hc
  have h2 := data_prefix_of_startsWith q "" hq
  rw [show ("" : String).data = [] from rfl, List.prefix_nil] at h2
  exact hqne (String.ext h2)

theorem find_none_of_unmarked (p c : String) (l : List CaseOption)
    (hall : ∀ o ∈ l, strStartsWith p o.value = false)
    (hc : strStartsWith p c = true) :
    l.find? (fun o => o.value == c) = none := by
  apply List.find?_eq_none.mpr
  intro o ho
  simp [beq_eq_false_of_prefix_mismatch p c o.value hc (hall o ho)]

theorem builtin_cases_not_regexp_marked (msg : String → String) :
    ∀ o ∈ GENERAL_CASES msg ++ TEXT_CASES msg, strStartsWith REGEXP_MARK o.value = false := by
  intro o ho
  fin_cases ho <;> (dsimp only; decide)

theorem natural_cases_not_regexp_marked (msg : String → String) :
    ∀ o ∈ NATURAL_CASES msg, strStartsWith REGEXP_MARK o.value = false := by
  intro o ho
  fin_cases ho <;> (dsimp only; decide)

theorem programming_cases_not_regexp_marked :
    ∀ o ∈ PROGRAMMING_CASES, strStartsWith REGEXP_MARK o.value = false := by
  decide

theorem findBuiltinCase_none_of_regexp (msg : String → String) (c : String)
    (hc : strStartsWith REGEXP_MARK c = true) : findBuiltinCase msg c = none :=
  find_none_of_unmarked REGEXP_MARK c _ (builtin_cases_not_regexp_marked msg) hc

theorem findNaturalCase_none_of_regexp (msg : String → String) (c : String)
    (hc : strStartsWith REGEXP_MARK c = true) : findNaturalCase msg c = none :=
  find_none_of_unmarked REGEXP_MARK c _ (natural_cases_not_regexp_marked msg) hc

theorem findProgrammingCase_none_of_regexp (c : String)
    (hc : strStartsWith REGEXP_MARK c = true) : findProgrammingCase c = none :=
  find_none_of_unmarked REGEXP_MARK c _ programming_cases_not_regexp_marked hc

theorem runChain_cons_none (m : MatcherFn) (rest : List MatcherFn) (env : Env)
    (t : String) (r : Rule) (c c' : Cache) (h : m env t r c = (none, c')) :
    runChain (m :: rest) env t r c = runChain rest env t r c' := by
  rw [runChain, h]

theorem customRegexMatcher_malformed (env : Env) (text : String) (rule : Rule)
    (cache : Cache) (regexp : Regexp)
    (h2 : env.regexps.find? (fun r => r.id == strDrop REGEXP_MARK.data.length rule.caseId) =
      some regexp)
    (h4 : env.compileRegex regexp.pattern regexp.flags = false) :
    customRegexMatcher env text rule cache = (none, cache) := by
  unfold customRegexMatcher
  split
  · rfl
  · dsimp only
    rw [h2]
    dsimp only
    split
    · rfl
    · rw [if_neg (by simp [h4])]

theorem runChain_regexp_case_none (env : Env) (text : String) (rule : Rule)
    (cache : Cache) (regexp : Regexp)
    (h1 : strStartsWith REGEXP_MARK rule.caseId = true)
    (h2 : env.regexps.find? (fun r => r.id == strDrop REGEXP_MARK.data.length rule.caseId) =
      some regexp)
    (h4 : env.compileRegex regexp.pattern regexp.flags = false) :
    runChain MATCHERS env text rule cache = (none, cache) := by
  have hne : rule.caseId ≠ "" :=
    ne_empty_of_startsWith REGEXP_MARK rule.caseId h1 (by decide)
  have hskip : skipMatcher env text rule cache = (none, cache) := by
    unfold skipMatcher
    rw [if_neg (by simp [hne])]
  have hb : builtinMatcher env text rule cache = (none, cache) := by
    unfold builtinMatcher
    split
    · rfl
    · rw [findBuiltinCase_none_of_regexp env.msg rule.caseId h1]
  have hn : naturalMatcher env text rule cache = (none, cache) := by
    unfold naturalMatcher
    split
    · rfl
    · rw [findNaturalCase_none_of_regexp env.msg rule.caseId h1]
  have hp : programmingMatcher env text rule cache = (none, cache) := by
    unfold programmingMatcher
    split
    · rfl
    · rw [findProgrammingCase_none_of_regexp rule.caseId h1]
  have hcr : customRegexMatcher env text rule cache = (none, cache) :=
    customRegexMatcher_malformed env text rule cache regexp h2 h4
  have hmodel : strStartsWith MODEL_MARK rule.caseId = false :=
    startsWith_false_of_shorter_mark MODEL_MARK REGEXP_MARK rule.caseId
      (by decide) (by decide) h1
  have hcm : customModelMatcher env text rule cache = (none, cache) := by
    unfold customModelMatcher
    rw [if_pos (by rw [hmodel]; simp)]
  rw [MATCHERS]
  rw [runChain_cons_none _ _ _ _ _ _ _ hskip, runChain_cons_none _ _ _ _ _ _ _ hb,
    runChain_cons_none _ _ _ _ _ _ _ hn, runChain_cons_none _ _ _ _ _ _ _ hp,
    runChain_cons_none _ _ _ _ _ _ _ hcr, runChain_cons_none _ _ _ _ _ _ _ hcm]
  rfl

theorem matchScan_cons_noop (env : Env) (text : String) (rule : Rule)
    (hnone : ∀ cache, runChain MATCHERS env text rule cache = (none, cache)) :
    ∀ (R2 : List Rule) (st : Cache × List String × List Rule),
      matchScan env text (rule :: R2) st = matchScan env text R2 st := by
  intro R2 st
  rcases st with ⟨c, a, acc⟩
  rw [matchScan]
  split
  · rfl
  · rw [hnone c]

/-- C9: a custom-regex case whose stored pattern fails to compile never
matches: the compilation error is caught inside the matcher (which returns
no match with the shared cache untouched), the whole recognizer chain
returns no match, and recognition of the remaining rules continues exactly
as if the rule were absent, in both `matchAll` and `matchOne`. -/
theorem malformed_regexp_nonfatal (env : Env) (text : String) (rule : Rule)
    (cache : Cache) (regexp : Regexp) (R1 R2 : List Rule)
    (h1 : strStartsWith REGEXP_MARK rule.caseId = true)
    (h2 : env.regexps.find? (fun r => r.id == strDrop REGEXP_MARK.data.length rule.caseId) =
      some regexp)
    (h4 : env.compileRegex regexp.pattern regexp.flags = false) :
    customRegexMatcher env text rule cache = (none, cache) ∧
    runChain MATCHERS env text rule cache = (none, cache) ∧
    matchAll env text (R1 ++ rule :: R2) = matchAll env text (R1 ++ R2) ∧
    matchOne env text (R1 ++ rule :: R2) = matchOne env text (R1 ++ R2) := by
  have hnone : ∀ c : Cache, runChain MATCHERS env text rule c = (none, c) := fun c =>
    runChain_regexp_case_none env text rule c regexp h1 h2 h4
  refine ⟨customRegexMatcher_malformed env text rule cache regexp h2 h4, hnone cache, ?_, ?_⟩
  · rw [matchAll_eq_scan, matchAll_eq_scan, matchScan_append, matchScan_append,
      matchScan_cons_noop env text rule hnone]
  · unfold matchOne
    rw [matchGo_false_head, matchGo_false_head, matchScan_append, matchScan_append,
      matchScan_cons_noop env text rule hnone]

/-- Witness for C9 at a concrete store with a non-compiling pattern. -/
theorem malformed_regexp_nonfatal_witness :
    customRegexMatcher envRegexBad "text" ruleRegexBad ⟨none, none⟩ =
      (none, (⟨none, none⟩ : Cache)) ∧
    runChain MATCHERS envRegexBad "text" ruleRegexBad ⟨none, none⟩ =
      (none, (⟨none, none⟩ : Cache)) ∧
    matchAll envRegexBad "text" ([] ++ ruleRegexBad :: [ruleSkip]) =
      matchAll envRegexBad "text" ([] ++ [ruleSkip]) ∧
    matchOne envRegexBad "text" ([] ++ ruleRegexBad :: [ruleSkip]) =
      matchOne envRegexBad "text" ([] ++ [ruleSkip]) :=
  malformed_regexp_nonfatal envRegexBad "text" ruleRegexBad ⟨none, none⟩ regexpBad
    [] [ruleSkip] (by decide) (by decide) rfl

theorem runProcess_clean (env : Env) (v text : String) :
    hasReplaceOrPopup (runProcess env v text).2 = false := by
  unfold runProcess
  split
  · dsimp only
    split <;> rfl
  · split
    · dsimp only
      simp [hasReplaceOrPopup, List.any_map, isReplaceOrPopup, Function.comp]
    · split
      · dsimp only
        simp [hasReplaceOrPopup, List.any_map, isReplaceOrPopup, Function.comp]
      · rfl

theorem defaultExecutor_clean (env : Env) (rule : Rule) (entry : Entry) :
    hasReplaceOrPopup (defaultExecutor env rule entry).2.2 = false := by
  unfold defaultExecutor
  split <;> rfl

theorem hasReplaceOrPopup_append (a b : List Effect) :
    hasReplaceOrPopup (a ++ b) = (hasReplaceOrPopup a || hasReplaceOrPopup b) := by
  rw [hasReplaceOrPopup, hasReplaceOrPopup, hasReplaceOrPopup, List.any_append]

theorem scriptExecutor_clean (env : Env) (rule : Rule) (entry : Entry)
    (hp : rule.preview = true) :
    hasReplaceOrPopup (scriptExecutor env rule entry).2.2 = false := by
  unfold scriptExecutor
  split
  · rfl
  · dsimp only
    split
    · rfl
    · split <;> (dsimp only; split <;> rfl)

theorem promptExecutor_skipped (env : Env) (rule : Rule) (entry : Entry)
    (hpr : strStartsWith PROMPT_MARK rule.action = false) :
    promptExecutor env rule entry = (Sum.inl false, entry, []) := by
  unfold promptExecutor
  rw [if_pos (by rw [hpr]; rfl)]

theorem searcherExecutor_clean (env : Env) (rule : Rule) (entry : Entry) :
    hasReplaceOrPopup (searcherExecutor env rule entry).2.2 = false := by
  unfold searcherExecutor
  split
  · rfl
  · dsimp only
    split
    · rfl
    · dsimp only
      split <;> simp [hasReplaceOrPopup, isReplaceOrPopup]

theorem builtinExecutor_clean (env : Env) (rule : Rule) (entry : Entry)
    (hp : rule.preview = true) :
    hasReplaceOrPopup (builtinExecutor env rule entry).2.2 = false := by
  unfold builtinExecutor
  split
  · rfl
  · dsimp only
    rw [if_pos hp]
    dsimp only
    rw [hasReplaceOrPopup_append, runProcess_clean, Bool.false_or]
    split <;> rfl

theorem runExecutors_clean (env : Env) (rule : Rule) :
    ∀ (l : List ExecutorFn),
      (∀ ex ∈ l, ∀ entry, hasReplaceOrPopup (ex env rule entry).2.2 = false) →
      ∀ (entry : Entry) (effs : List Effect), hasReplaceOrPopup effs = false →
        hasReplaceOrPopup (runExecutors env rule l entry effs).2 = false := by
  intro l
  induction l with
  | nil =>
    intro _ entry effs he
    simpa [runExecutors] using he
  | cons ex rest ih =>
    intro hall entry effs he
    rw [runExecutors]
    rcases hx : ex env rule entry with ⟨v, entry', effs'⟩
    have hex : hasReplaceOrPopup effs' = false := by
      have h2 := hall ex (by simp) entry
      rw [hx] at h2
      exact h2
    have happ : hasReplaceOrPopup (effs ++ effs') = false := by
      rw [hasReplaceOrPopup, List.any_append]
      rw [hasReplaceOrPopup] at he hex
      rw [he, hex]
      rfl
    cases v with
    | inl b =>
      cases b
      · dsimp only
        exact ih (fun g hg entry2 => hall g (by simp [hg]) entry2) entry' (effs ++ effs') happ
      · dsimp only
        exact happ
    | inr s =>
      dsimp only
      split
      · exact ih (fun g hg entry2 => hall g (by simp [hg]) entry2) entry' (effs ++ effs') happ
      · exact happ

theorem find_proc_none_of_unmarked (p c : String) (l : List Processor)
    (hall : ∀ o ∈ l, strStartsWith p o.value = false)
    (hc : strStartsWith p c = true) :
    l.find? (fun o => o.value == c) = none := by
  apply List.find?_eq_none.mpr
  intro o ho
  simp [beq_eq_false_of_prefix_mismatch p c o.value hc (hall o ho)]

theorem builtin_actions_facts (msg : String → String) :
    ∀ o ∈ DEFAULT_ACTIONS msg ++ GENERAL_ACTIONS msg ++ CONVERT_ACTIONS msg ++
        PROCESS_ACTIONS msg,
      (o.value == "") = false ∧ strStartsWith SCRIPT_MARK o.value = false ∧
        strStartsWith SEARCHER_MARK o.value = false ∧
        strStartsWith PROMPT_MARK o.value = false := by
  intro o ho
  fin_cases ho <;> (dsimp only; decide)

theorem findBuiltinAction_action_facts (msg : String → String) (a : String) (b : Processor)
    (h : findBuiltinAction msg a = some b) :
    a = b.value ∧ (a == "") = false ∧ strStartsWith SCRIPT_MARK a = false ∧
      strStartsWith SEARCHER_MARK a = false ∧ strStartsWith PROMPT_MARK a = false := by
  unfold findBuiltinAction at h
  have hmem := List.mem_of_find?_eq_some h
  have hbeq := List.find?_some h
  have hval : b.value = a := by simpa using hbeq
  obtain ⟨h1, h2, h3, h4⟩ := builtin_actions_facts msg b hmem
  rw [hval] at h1 h2 h3 h4
  exact ⟨hval.symm, h1, h2, h3, h4⟩

theorem findBuiltinAction_none_of_script (msg : String → String) (c : String)
    (hc : strStartsWith SCRIPT_MARK c = true) : findBuiltinAction msg c = none := by
  unfold findBuiltinAction
  apply find_proc_none_of_unmarked SCRIPT_MARK c _ _ hc
  intro o ho
  exact (builtin_actions_facts msg o ho).2.1

theorem runExecutors_cons_false (env : Env) (rule : Rule) (ex : ExecutorFn)
    (rest : List ExecutorFn) (entry entry' : Entry) (effs effs' : List Effect)
    (h : ex env rule entry = (Sum.inl false, entry', effs')) :
    runExecutors env rule (ex :: rest) entry effs =
      runExecutors env rule rest entry' (effs ++ effs') := by
  rw [runExecutors, h]

theorem defaultExecutor_skipped (env : Env) (rule : Rule) (entry : Entry)
    (h : (rule.action == "") = false) :
    defaultExecutor env rule entry = (Sum.inl false, entry, []) := by
  unfold defaultExecutor
  rw [if_neg (by simp [h])]

theorem scriptExecutor_skipped (env : Env) (rule : Rule) (entry : Entry)
    (h : strStartsWith SCRIPT_MARK rule.action = false) :
    scriptExecutor env rule entry = (Sum.inl false, entry, []) := by
  unfold scriptExecutor
  rw [if_pos (by rw [h]; rfl)]

theorem searcherExecutor_skipped (env : Env) (rule : Rule) (entry : Entry)
    (h : strStartsWith SEARCHER_MARK rule.action = false) :
    searcherExecutor env rule entry = (Sum.inl false, entry, []) := by
  unfold searcherExecutor
  rw [if_pos (by rw [h]; rfl)]

theorem builtinExecutor_skipped (env : Env) (rule : Rule) (entry : Entry)
    (h : findBuiltinAction env.msg rule.action = none) :
    builtinExecutor env rule entry = (Sum.inl false, entry, []) := by
  unfold builtinExecutor
  rw [h]

theorem builtinExecutor_preview (env : Env) (rule : Rule) (entry : Entry) (b : Processor)
    (hp : rule.preview = true) (hb : findBuiltinAction env.msg rule.action = some b) :
    ∃ (entry' : Entry) (effs : List Effect),
      builtinExecutor env rule entry =
        (Sum.inr (runProcess env b.value entry.selection).1, entry', effs) := by
  unfold builtinExecutor
  rw [hb]
  dsimp only
  rw [if_pos hp]
  exact ⟨_, _, rfl⟩

theorem scriptExecutor_preview (env : Env) (rule : Rule) (entry : Entry) (s : Script)
    (hp : rule.preview = true)
    (hsc : strStartsWith SCRIPT_MARK rule.action = true)
    (hs : env.scripts.find? (fun sc => sc.id == strDrop SCRIPT_MARK.data.length rule.action) =
      some s)
    (herr : (env.runScript s entry).error = false) :
    ∃ (entry' : Entry) (effs : List Effect),
      scriptExecutor env rule entry = (Sum.inr (env.runScript s entry).text, entry', effs) := by
  unfold scriptExecutor
  rw [if_neg (by rw [hsc]; simp)]
  dsimp only
  rw [hs]
  dsimp only
  rw [if_pos (by rw [herr]; rfl)]
  rw [if_pos hp]
  exact ⟨_, _, rfl⟩

/-- C5 counterexample: the claim as stated is false on the code — a rule
with `preview = true` bound to a prompt action still triggers the popup
display, because `promptExecutor` calls `showPopup` unconditionally. -/
theorem preview_prompt_popup_counterexample :
    rulePrompt.preview = true ∧
    hasReplaceOrPopup (execute envPrompt rulePrompt "hi").2 = true :=
  ⟨rfl, by decide⟩

/-- C5 (amended): a `preview = true` rule whose action is not a prompt
action triggers neither in-place replacement nor a popup, whatever its
`outputMode`; for a builtin action the processed text is returned to the
caller, and for a found script action with a non-error result the script's
output text is returned to the caller.  (Prompt actions are the exception
the counterexample exhibits: their executor always opens the popup.) -/
theorem preview_never_replaces_or_popups (env : Env) (rule : Rule) (selection : String)
    (hp : rule.preview = true) (hpr : strStartsWith PROMPT_MARK rule.action = false) :
    hasReplaceOrPopup (execute env rule selection).2 = false ∧
    (∀ b : Processor, findBuiltinAction env.msg rule.action = some b →
      (execute env rule selection).1 = (runProcess env b.value selection).1) ∧
    (∀ s : Script, strStartsWith SCRIPT_MARK rule.action = true →
      env.scripts.find? (fun sc => sc.id == strDrop SCRIPT_MARK.data.length rule.action) =
        some s →
      (env.runScript s (initEntry env rule selection)).error = false →
      (execute env rule selection).1 = (env.runScript s (initEntry env rule selection)).text) := by
  refine ⟨?_, ?_, ?_⟩
  · unfold execute
    apply runExecutors_clean env rule EXECUTORS ?_ (initEntry env rule selection) [] rfl
    intro ex hex entry
    simp only [EXECUTORS, List.mem_cons, List.mem_singleton, List.not_mem_nil, or_false] at hex
    rcases hex with rfl | rfl | rfl | rfl | rfl
    · exact defaultExecutor_clean env rule entry
    · exact scriptExecutor_clean env rule entry hp
    · rw [promptExecutor_skipped env rule entry hpr]
      rfl
    · exact searcherExecutor_clean env rule entry
    · exact builtinExecutor_clean env rule entry hp
  · intro b hb
    obtain ⟨hval, hne, hscr, hsea, hprm⟩ :=
      findBuiltinAction_action_facts env.msg rule.action b hb
    unfold execute
    rw [show EXECUTORS =
      [defaultExecutor, scriptExecutor, promptExecutor, searcherExecutor, builtinExecutor]
      from rfl]
    rw [runExecutors_cons_false _ _ _ _ _ _ _ _ (defaultExecutor_skipped _ _ _ hne)]
    rw [runExecutors_cons_false _ _ _ _ _ _ _ _ (scriptExecutor_skipped _ _ _ hscr)]
    rw [runExecutors_cons_false _ _ _ _ _ _ _ _ (promptExecutor_skipped _ _ _ hpr)]
    rw [runExecutors_cons_false _ _ _ _ _ _ _ _ (searcherExecutor_skipped _ _ _ hsea)]
    obtain ⟨entry', effs, hbu⟩ :=
      builtinExecutor_preview env rule (initEntry env rule selection) b hp hb
    rw [runExecutors, hbu]
    dsimp only
    split
    next hs =>
      rw [runExecutors]
      simp only [initEntry] at hs ⊢
      exact (by simpa using hs : (runProcess env b.value selection).1 = "").symm
    next =>
      simp only [initEntry]
  · intro s hsc hs herr
    have hne : (rule.action == "") = false :=
      beq_eq_false_iff_ne.mpr (ne_empty_of_startsWith SCRIPT_MARK rule.action hsc (by decide))
    have hsea : strStartsWith SEARCHER_MARK rule.action = false :=
      startsWith_false_of_longer_mark SEARCHER_MARK SCRIPT_MARK rule.action
        (by decide) (by decide) hsc
    have hbnone : findBuiltinAction env.msg rule.action = none :=
      findBuiltinAction_none_of_script env.msg rule.action hsc
    unfold execute
    rw [show EXECUTORS =
      [defaultExecutor, scriptExecutor, promptExecutor, searcherExecutor, builtinExecutor]
      from rfl]
    rw [runExecutors_cons_false _ _ _ _ _ _ _ _ (defaultExecutor_skipped _ _ _ hne)]
    obtain ⟨entry', effs, hse⟩ :=
      scriptExecutor_preview env rule (initEntry env rule selection) s hp hsc hs herr
    rw [runExecutors, hse]
    dsimp only
    split
    next hs2 =>
      rw [runExecutors_cons_false _ _ _ _ _ _ _ _ (promptExecutor_skipped _ _ _ hpr)]
      rw [runExecutors_cons_false _ _ _ _ _ _ _ _ (searcherExecutor_skipped _ _ _ hsea)]
      rw [runExecutors_cons_false _ _ _ _ _ _ _ _ (builtinExecutor_skipped _ _ _ hbnone)]
      rw [runExecutors]
      exact (by simpa using hs2 : (env.runScript s (initEntry env rule selection)).text = "").symm
    next => rfl

/-- Witness for the amended C5 at a concrete builtin preview rule. -/
theorem preview_never_replaces_or_popups_witness :
    hasReplaceOrPopup (execute envBase rulePreviewCopy "abc").2 = false ∧
    (execute envBase rulePreviewCopy "abc").1 = (runProcess envBase "copy" "abc").1 :=
  ⟨(preview_never_replaces_or_popups envBase rulePreviewCopy "abc" rfl (by decide)).1,
   (preview_never_replaces_or_popups envBase rulePreviewCopy "abc" rfl (by decide)).2.1
     ⟨"copy", "copy", true⟩ (by decide)⟩

theorem findIndex_lt_length (p : α → Bool) :
    ∀ (l : List α) (i : Nat), findIndex p l = some i → i < l.length := by
  intro l
  induction l with
  | nil => intro i h; simp [findIndex] at h
  | cons a rest ih =>
    intro i h
    rw [findIndex] at h
    split at h
    · simp only [Option.some.injEq] at h
      rw [← h]
      simp
    · rcases hj : findIndex p rest with - | j
      · rw [hj] at h
        simp at h
      · rw [hj] at h
        simp at h
        have := ih j hj
        simp [List.length_cons]
        omega

/-- C7: removing a rule by id unbinds the backend hotkey exactly when the
remaining rule list becomes empty and the trigger is not a pointer gesture:
one unbind call for the last rule of a keyboard shortcut, none for a
pointer-gesture shortcut, and none when other rules remain. -/
theorem unregister_unbinds_exactly_last_keyboard (m : Shortcuts) (rule : Rule)
    (s : ShortcutState) (hs : lookupShortcut m rule.shortcut = some s) :
    (isMouseShortcut rule.shortcut = false → ∀ r0 : Rule, s.rules = [r0] → r0.id = rule.id →
      (managerUnregister m rule).2 = [MgrEffect.unregisterShortcut rule.shortcut]) ∧
    (isMouseShortcut rule.shortcut = true → (managerUnregister m rule).2 = []) ∧
    (∀ i : Nat, findIndex (fun r => r.id == rule.id) s.rules = some i →
      2 ≤ s.rules.length → (managerUnregister m rule).2 = []) := by
  unfold managerUnregister
  rw [hs]
  dsimp only
  refine ⟨?_, ?_, ?_⟩
  · intro hmouse r0 hrules hid
    rw [hrules]
    simp [findIndex, hid, hmouse, List.eraseIdx]
  · intro hmouse
    simp [hmouse]
  · intro i hfi hlen
    rw [hfi]
    have hlt := findIndex_lt_length _ s.rules i hfi
    have hlen2 : (s.rules.eraseIdx i).length = s.rules.length - 1 := by
      rw [List.length_eraseIdx]
      simp [hlt]
    have hne : ((s.rules.eraseIdx i).length == 0) = false := by
      rw [hlen2]
      apply beq_eq_false_iff_ne.mpr
      omega
    simp [hne]

theorem lookupShortcut_update (s : String) (st' : ShortcutState) :
    ∀ (m : Shortcuts) (st : ShortcutState), lookupShortcut m s = some st →
      lookupShortcut (updateShortcut m s st') s = some st' := by
  intro m
  induction m with
  | nil => intro st h; simp [lookupShortcut] at h
  | cons e rest ih =>
    rcases e with ⟨k, v⟩
    intro st h
    simp only [lookupShortcut, updateShortcut, List.map_cons]
    by_cases hkey : (k == s) = true
    · rw [show (if ((k, v).1 == s) = true then ((k, v).1, st')
          else ((k, v) : String × ShortcutState)) = (k, st') from by simp [hkey]]
      rw [List.find?_cons_of_pos _ (by simpa using hkey)]
      rfl
    · rw [show (if ((k, v).1 == s) = true then ((k, v).1, st')
          else ((k, v) : String × ShortcutState)) = (k, v) from by simp [hkey]]
      rw [List.find?_cons_of_neg _ (by simpa using hkey)]
      have h' : lookupShortcut rest s = some st := by
        simp only [lookupShortcut] at h ⊢
        rwa [List.find?_cons_of_neg _ (by simpa using hkey)] at h
      have h2 := ih st h'
      simp only [lookupShortcut, updateShortcut] at h2
      exact h2

theorem bind_state_after_add (env : Env) (m : Shortcuts)
    (shortcut caseId actionId newId : String) (dm om : Option String) (pv hi cb : Bool)
    (s : ShortcutState) (hs : lookupShortcut m shortcut = some s)
    (hfresh : (s.rules.find? (fun r => r.id == newId)).isNone = true)
    (hdup : ((rulesOf m shortcut).find? (fun r =>
      r.shortcut == shortcut && r.caseId == caseId && r.action == actionId)).isSome = false) :
    (bind env m shortcut caseId actionId newId dm om pv hi cb).1 =
      updateShortcut m shortcut
        { s with rules := s.rules ++ [mkRule shortcut caseId actionId newId dm om pv hi cb] } := by
  unfold bind
  dsimp only
  rw [if_neg (by simp [hdup])]
  unfold managerRegister
  dsimp only
  rw [show (mkRule shortcut caseId actionId newId dm om pv hi cb).shortcut = shortcut from rfl]
  rw [hs]
  dsimp only
  rw [if_pos (by simpa [mkRule] using hfresh)]

/-- C6: registering the same `(shortcut, case, action)` triple twice fails
the second time with the duplicate-rule alert and leaves the registry
unchanged, and within one shortcut's rule list `bind` preserves the
invariant that no two rules share the same `(case, action)` pair. -/
theorem duplicate_registration_rejected (env : Env) (m : Shortcuts)
    (shortcut caseId actionId newId : String) (dm om : Option String) (pv hi cb : Bool) :
    (((rulesOf m shortcut).find? (fun r =>
        r.shortcut == shortcut && r.caseId == caseId && r.action == actionId)).isSome = true →
      bind env m shortcut caseId actionId newId dm om pv hi cb =
        (m, BindOutcome.duplicateError, [])) ∧
    (∀ s : ShortcutState, lookupShortcut m shortcut = some s →
      (s.rules.find? (fun r => r.id == newId)).isNone = true →
      ((rulesOf m shortcut).find? (fun r =>
        r.shortcut == shortcut && r.caseId == caseId && r.action == actionId)).isSome = false →
      ∀ (newId2 : String) (dm2 om2 : Option String) (pv2 hi2 cb2 : Bool),
        bind env (bind env m shortcut caseId actionId newId dm om pv hi cb).1
          shortcut caseId actionId newId2 dm2 om2 pv2 hi2 cb2 =
        ((bind env m shortcut caseId actionId newId dm om pv hi cb).1,
          BindOutcome.duplicateError, [])) ∧
    ((∀ r ∈ rulesOf m shortcut, r.shortcut = shortcut) →
      (pairsOf (rulesOf m shortcut)).Nodup →
      (pairsOf (rulesOf (bind env m shortcut caseId actionId newId dm om pv hi cb).1
        shortcut)).Nodup) := by
  refine ⟨?_, ?_, ?_⟩
  · intro h
    unfold bind
    dsimp only
    rw [if_pos h]
  · intro s hs hfresh hdup newId2 dm2 om2 pv2 hi2 cb2
    rw [bind_state_after_add env m shortcut caseId actionId newId dm om pv hi cb s hs
      hfresh hdup]
    have hlook := lookupShortcut_update shortcut
      { s with rules := s.rules ++ [mkRule shortcut caseId actionId newId dm om pv hi cb] }
      m s hs
    have hrules2 : rulesOf (updateShortcut m shortcut
        { s with rules := s.rules ++ [mkRule shortcut caseId actionId newId dm om pv hi cb] })
        shortcut =
        s.rules ++ [mkRule shortcut caseId actionId newId dm om pv hi cb] := by
      unfold rulesOf
      rw [hlook]
    have hd2 : ((rulesOf (updateShortcut m shortcut
        { s with rules := s.rules ++ [mkRule shortcut caseId actionId newId dm om pv hi cb] })
        shortcut).find? (fun r =>
          r.shortcut == shortcut && r.caseId == caseId && r.action == actionId)).isSome =
        true := by
      rw [hrules2]
      apply List.find?_isSome.mpr
      exact ⟨mkRule shortcut caseId actionId newId dm om pv hi cb,
        List.mem_append_right _ (List.mem_singleton.mpr rfl), by simp [mkRule]⟩
    unfold bind
    dsimp only
    rw [if_pos hd2]
  · intro halign hnodup
    by_cases hdup : ((rulesOf m shortcut).find? (fun r =>
        r.shortcut == shortcut && r.caseId == caseId && r.action == actionId)).isSome = true
    · unfold bind
      dsimp only
      rw [if_pos hdup]
      exact hnodup
    · have hdupf : ((rulesOf m shortcut).find? (fun r =>
          r.shortcut == shortcut && r.caseId == caseId && r.action == actionId)).isSome =
          false := by
        simpa using hdup
      rcases hlookup : lookupShortcut m shortcut with - | s
      · have hid : (bind env m shortcut caseId actionId newId dm om pv hi cb).1 = m := by
          unfold bind
          dsimp only
          rw [if_neg (by simp [hdupf])]
          unfold managerRegister
          dsimp only
          rw [show (mkRule shortcut caseId actionId newId dm om pv hi cb).shortcut =
            shortcut from rfl]
          rw [hlookup]
        rw [hid]
        exact hnodup
      · by_cases hfresh : (s.rules.find? (fun r => r.id == newId)).isNone = true
        · rw [bind_state_after_add env m shortcut caseId actionId newId dm om pv hi cb s
            hlookup hfresh hdupf]
          have hlook2 := lookupShortcut_update shortcut
            { s with rules := s.rules ++ [mkRule shortcut caseId actionId newId dm om pv hi cb] }
            m s hlookup
          have hrulesEq : rulesOf m shortcut = s.rules := by
            unfold rulesOf
            rw [hlookup]
          unfold rulesOf
          rw [hlook2]
          dsimp only
          rw [pairsOf, List.map_append]
          apply List.Nodup.append ?h1 (List.nodup_singleton _) ?hdisj
          case h1 =>
            rw [pairsOf, hrulesEq] at hnodup
            exact hnodup
          case hdisj =>
            intro x hx hx2
            simp only [List.map_cons, List.map_nil, List.mem_singleton] at hx2
            obtain ⟨r, hr, hrx⟩ := List.mem_map.mp hx
            have hnone : (rulesOf m shortcut).find? (fun r =>
                r.shortcut == shortcut && r.caseId == caseId && r.action == actionId) = none :=
              Option.not_isSome_iff_eq_none.mp (by simp [hdupf])
            have hall := List.find?_eq_none.mp hnone r (by rw [hrulesEq]; exact hr)
            apply hall
            have hxpair : (r.caseId, r.action) = (caseId, actionId) := by
              rw [hrx, hx2]
              rfl
            simp only [Prod.mk.injEq] at hxpair
            simp [halign r (by rw [hrulesEq]; exact hr), hxpair.1, hxpair.2]
        · have hid : (bind env m shortcut caseId actionId newId dm om pv hi cb).1 = m := by
            unfold bind
            dsimp only
            rw [if_neg (by simp [hdupf])]
            unfold managerRegister
            dsimp only
            rw [show (mkRule shortcut caseId actionId newId dm om pv hi cb).shortcut =
              shortcut from rfl]
            rw [hlookup]
            dsimp only
            rw [if_neg (by simpa [mkRule] using hfresh)]
          rw [hid]
          exact hnodup

/-- Witness for C6: after a successful registration of `(Alt+X, skip, copy)`
a second registration of the same triple is rejected with the duplicate
error and the registry is unchanged. -/
theorem duplicate_registration_rejected_witness :
    bind envBase (bind envBase shortcutsEmpty "Alt+X" "" "copy" "n1"
        none none false false false).1
      "Alt+X" "" "copy" "n2" none none false false false =
    ((bind envBase shortcutsEmpty "Alt+X" "" "copy" "n1" none none false false false).1,
      BindOutcome.duplicateError, []) :=
  (duplicate_registration_rejected envBase shortcutsEmpty "Alt+X" "" "copy" "n1"
      none none false false false).2.1 { mode := "quiet", rules := [] }
    (by decide) (by decide) (by decide) "n2" none none false false false

/-- Witness for C7: one unbind for the last rule of a keyboard shortcut,
none for a pointer-gesture shortcut. -/
theorem unregister_unbinds_exactly_last_keyboard_witness :
    (managerUnregister shortcutsOneRule ruleSkip).2 =
      [MgrEffect.unregisterShortcut "Alt+X"] ∧
    (managerUnregister shortcutsMouse ruleMouse).2 = [] :=
  ⟨(unregister_unbinds_exactly_last_keyboard shortcutsOneRule ruleSkip
      { mode := "quiet", rules := [ruleSkip] } (by decide)).1 (by decide) ruleSkip rfl rfl,
   (unregister_unbinds_exactly_last_keyboard shortcutsMouse ruleMouse
      { mode := "toolbar", rules := [ruleMouse] } (by decide)).2.1 (by decide)⟩

end TextGO
